import Mathlib

/-!
Verification of the brain-notes storage engine (src/app.py).

The SQLite tables `pages`, `blocks`, `databases`, `db_items`, `db_views`
(src/app.py:24-97) are embedded as lists of records; each Flask handler that
the claims mention is embedded as a pure function on this state.  SQL
semantics used by the code are modelled directly:
  * `SELECT ... WHERE id=? ... fetchone()`  becomes `List.find?`;
  * `DELETE ... WHERE ...`                  becomes `List.filter`;
  * `UPDATE ... WHERE ...`                  becomes `List.map` guarded on the row;
  * `SELECT COALESCE(MAX(sort_order),0)`    becomes `maxSortD`;
  * `ORDER BY k1, k2`                       becomes `List.mergeSort` with the
    corresponding boolean comparator.
The connection enables `PRAGMA foreign_keys=ON` (src/app.py:19), so the
declared foreign-key actions are part of every statement's semantics:
deleting a page row sets `parent_id` of its children and `page_id` of the
items backed by it to NULL and cascades to its blocks (src/app.py:36,48,76);
an INSERT or UPDATE that stores a dangling reference fails, which aborts the
request before its single commit, so the whole operation has no effect.
Timestamps (`now()`, src/app.py:112) are passed in as a `Nat` parameter `t`;
generated ids (`gen_id()`, src/app.py:115) are passed in explicitly.
JSON object fields (`properties`, `config`) are modelled as association
lists of string keys and string values; a Python `dict.update` merge is
`dictUpdate` below.
-/

namespace BrainNotes

/-- JSON object payloads (`properties` of blocks/items, `config` of views). -/
abbrev Props := List (String × String)

/-- A row of the `pages` table (src/app.py:25-37). -/
structure Page where
  id : String
  title : String := "Untitled"
  icon : String := ""
  cover : String := ""
  parent_id : Option String := none
  workspace : String := "docs"
  sort_order : Int := 0
  is_favorite : Bool := false
  created_at : Nat := 0
  updated_at : Nat := 0
  deriving DecidableEq, Repr

/-- A row of the `blocks` table (src/app.py:39-49). -/
structure Block where
  id : String
  page_id : String
  type : String := "text"
  content : String := ""
  properties : Props := []
  sort_order : Int := 0
  indent_level : Int := 0
  created_at : Nat := 0
  deriving DecidableEq, Repr

/-- One option of a select/multi_select property in a database schema. -/
structure SchemaOption where
  id : String
  name : String
  color : String
  deriving DecidableEq, Repr

/-- One property definition inside `properties_schema`. -/
structure SchemaProp where
  id : String
  name : String
  type : String
  options : List SchemaOption := []
  deriving DecidableEq, Repr

/-- A row of the `databases` table (src/app.py:52-62); `properties_schema`
is stored as JSON text in SQLite and as its parsed form here. -/
structure Database where
  id : String
  title : String := "Untitled Database"
  icon : String := ""
  workspace : String := "projects"
  description : String := ""
  properties_schema : List SchemaProp := []
  default_view : String := "table"
  created_at : Nat := 0
  updated_at : Nat := 0
  deriving DecidableEq, Repr

/-- A row of the `db_items` table (src/app.py:65-77). -/
structure DbItem where
  id : String
  database_id : String
  title : String := "Untitled"
  icon : String := ""
  properties : Props := []
  page_id : Option String := none
  sort_order : Int := 0
  created_at : Nat := 0
  updated_at : Nat := 0
  deriving DecidableEq, Repr

/-- A row of the `db_views` table (src/app.py:80-88). -/
structure DbView where
  id : String
  database_id : String
  name : String := "Default"
  type : String := "table"
  config : Props := []
  sort_order : Int := 0
  deriving DecidableEq, Repr

/-- The whole persistent store. -/
structure DB where
  pages : List Page := []
  blocks : List Block := []
  databases : List Database := []
  db_items : List DbItem := []
  db_views : List DbView := []
  deriving DecidableEq, Repr

/-- Result of one HTTP operation: a 2xx payload, the 404 `Not found` reply,
or a 5xx failure (unhandled exception, e.g. a foreign-key violation or a
`None` subscript); in the `err` case the request aborts before its commit
was reached, or crashes after it, as noted at each operation. -/
inductive Outcome (α : Type) where
  | ok (a : α)
  | notFound
  | err
  deriving DecidableEq, Repr

/-- Models `SELECT COALESCE(MAX(sort_order),0)` over the `sort_order` column of a
row set: the true maximum when rows exist, otherwise 0. -/
def maxSortD (l : List Int) : Int :=
  match l with
  | [] => 0
  | x :: xs => xs.foldl max x

/-- Python truthiness of an optional string (`if parent_id:` and friends):
`None` and the empty string are falsy. -/
def truthy (o : Option String) : Bool :=
  match o with
  | none => false
  | some v => v ≠ ""

/-- Python `dict.update`: keys already present are overwritten in place,
new keys are appended in order. -/
def dictUpdate (old new : Props) : Props :=
  new.foldl (fun acc kv =>
    if acc.any (fun p => p.1 = kv.1) then
      acc.map (fun p => if p.1 = kv.1 then (p.1, kv.2) else p)
    else acc ++ [kv]) old

/-- Models `UPDATE pages SET updated_at=? WHERE id=?`. -/
def stampPage (s : DB) (t : Nat) (pid : String) : DB :=
  { s with pages := s.pages.map (fun p => if p.id = pid then { p with updated_at := t } else p) }

/-- Models `UPDATE databases SET updated_at=? WHERE id=?`. -/
def stampDatabase (s : DB) (t : Nat) (dbId : String) : DB :=
  { s with databases := s.databases.map (fun d => if d.id = dbId then { d with updated_at := t } else d) }

/-- Models `DELETE FROM blocks WHERE page_id=?`. -/
def deleteBlocksOfPage (s : DB) (pid : String) : DB :=
  { s with blocks := s.blocks.filter (fun b => b.page_id ≠ pid) }

/-- Models `DELETE FROM pages WHERE id=?` with the declared foreign-key actions
(src/app.py:36,48,76): children of the deleted page get `parent_id` NULL,
its blocks are cascaded away, items backed by it get `page_id` NULL. -/
def sqlDeletePage (s : DB) (pid : String) : DB :=
  { s with
    pages := (s.pages.filter (fun p => p.id ≠ pid)).map
      (fun p => if p.parent_id = some pid then { p with parent_id := none } else p),
    blocks := s.blocks.filter (fun b => b.page_id ≠ pid),
    db_items := s.db_items.map
      (fun i => if i.page_id = some pid then { i with page_id := none } else i) }

/-- Comparator for `ORDER BY is_favorite DESC, sort_order ASC, updated_at DESC`
(src/app.py:130); `is_favorite` is stored as 0/1 so DESC puts favorites first. -/
def pageLE (a b : Page) : Bool :=
  (b.is_favorite && !a.is_favorite) = false &&
  (!(a.is_favorite && !b.is_favorite) →
    (a.sort_order < b.sort_order ||
     (a.sort_order = b.sort_order && b.updated_at ≤ a.updated_at)))

/-- Comparator for `ORDER BY sort_order` on blocks (src/app.py:179,246). -/
def blockLE (a b : Block) : Bool :=
  a.sort_order ≤ b.sort_order

/-- Comparator for `ORDER BY sort_order` on child pages (src/app.py:182). -/
def childLE (a b : Page) : Bool :=
  a.sort_order ≤ b.sort_order

/-- Comparator for `ORDER BY sort_order, created_at` on items (src/app.py:451). -/
def itemLE (a b : DbItem) : Bool :=
  a.sort_order < b.sort_order || (a.sort_order = b.sort_order && a.created_at ≤ b.created_at)

/-- Comparator for `ORDER BY sort_order` on views (src/app.py:454). -/
def viewLE (a b : DbView) : Bool :=
  a.sort_order ≤ b.sort_order

/-- Handler `GET /api/pages` (src/app.py:124-137).  A missing or empty `workspace`
query argument is falsy, so the filter is skipped. -/
def list_pages (s : DB) (ws : Option String) : List Page :=
  match ws with
  | some w =>
      if w ≠ "" then (s.pages.filter (fun p => p.workspace = w)).mergeSort pageLE
      else s.pages.mergeSort pageLE
  | none => s.pages.mergeSort pageLE

/-- Request body of `POST /api/pages` (src/app.py:141-146), with the
defaults the handler substitutes. -/
structure CreatePageInput where
  id : Option String := none
  title : String := "Untitled"
  parent_id : Option String := none
  icon : String := ""
  workspace : String := "docs"
  deriving DecidableEq, Repr

/-- Handler `POST /api/pages` (src/app.py:139-170).  `if parent_id:` is Python
truthiness, so an empty-string parent is treated like an absent one for the
sibling query, while the INSERT stores the value verbatim.  `genPageId` is
the `gen_id()` used when the body carries no id, `genBlockId` the one for
the default block.  A primary-key or foreign-key violation aborts the
request before its commit, leaving the store unchanged. -/
def create_page (s : DB) (t : Nat) (genPageId genBlockId : String) (d : CreatePageInput) :
    DB × Outcome Page :=
  let page_id := d.id.getD genPageId
  let max_order : Int :=
    if truthy d.parent_id then
      maxSortD ((s.pages.filter (fun p => p.parent_id = d.parent_id)).map (·.sort_order))
    else
      maxSortD ((s.pages.filter
        (fun p => p.parent_id = none ∧ p.workspace = d.workspace)).map (·.sort_order))
  let fkOk : Bool :=
    match d.parent_id with
    | none => true
    | some par => s.pages.any (fun p => p.id = par)
  if (s.pages.any (fun p => p.id = page_id)) ∨ fkOk = false ∨
      (s.blocks.any (fun b => b.id = genBlockId)) then
    (s, .err)
  else
    let newPage : Page :=
      { id := page_id, title := d.title, icon := d.icon, cover := "",
        parent_id := d.parent_id, workspace := d.workspace,
        sort_order := max_order + 1, is_favorite := false,
        created_at := t, updated_at := t }
    let newBlock : Block :=
      { id := genBlockId, page_id := page_id, type := "text", content := "",
        properties := [], sort_order := 0, indent_level := 0, created_at := t }
    ({ s with pages := s.pages ++ [newPage], blocks := s.blocks ++ [newBlock] }, .ok newPage)

/-- Handler `GET /api/pages/<page_id>` (src/app.py:172-187): the page, its blocks
ordered by `sort_order`, and its immediate children ordered by `sort_order`
(the handler projects children to id/title/icon; we return the rows). -/
def get_page (s : DB) (pid : String) : Outcome (Page × List Block × List Page) :=
  match s.pages.find? (fun p => p.id = pid) with
  | none => .notFound
  | some pg =>
      .ok (pg, (s.blocks.filter (fun b => b.page_id = pid)).mergeSort blockLE,
           (s.pages.filter (fun p => p.parent_id = some pid)).mergeSort childLE)

/-- Request body of `PUT /api/pages/<page_id>` (src/app.py:198): each field
is applied only when present; `parent_id` distinguishes an absent field from
a field present with a null value. -/
structure UpdatePageInput where
  title : Option String := none
  icon : Option String := none
  cover : Option String := none
  parent_id : Option (Option String) := none
  sort_order : Option Int := none
  is_favorite : Option Bool := none
  workspace : Option String := none
  deriving DecidableEq, Repr

def UpdatePageInput.hasField (d : UpdatePageInput) : Bool :=
  d.title.isSome || d.icon.isSome || d.cover.isSome || d.parent_id.isSome ||
  d.sort_order.isSome || d.is_favorite.isSome || d.workspace.isSome

def applyPageUpdate (d : UpdatePageInput) (t : Nat) (p : Page) : Page :=
  { p with
    title := d.title.getD p.title,
    icon := d.icon.getD p.icon,
    cover := d.cover.getD p.cover,
    parent_id := d.parent_id.getD p.parent_id,
    sort_order := d.sort_order.getD p.sort_order,
    is_favorite := d.is_favorite.getD p.is_favorite,
    workspace := d.workspace.getD p.workspace,
    updated_at := t }

/-- Handler `PUT /api/pages/<page_id>` (src/app.py:189-210): 404 when the id does
not resolve; otherwise the supplied fields plus `updated_at` are written.
Storing a non-null `parent_id` that references no page violates the foreign
key and aborts the request before its commit. -/
def update_page (s : DB) (t : Nat) (pid : String) (d : UpdatePageInput) :
    DB × Outcome (Option Page) :=
  match s.pages.find? (fun p => p.id = pid) with
  | none => (s, .notFound)
  | some _ =>
      let fkOk : Bool :=
        match d.parent_id with
        | some (some par) => s.pages.any (fun p => p.id = par)
        | _ => true
      if fkOk = false then (s, .err)
      else
        let s2 :=
          if d.hasField then
            { s with pages := s.pages.map (fun p => if p.id = pid then applyPageUpdate d t p else p) }
          else s
        (s2, .ok (s2.pages.find? (fun p => p.id = pid)))

/-- Helper `delete_page_recursive` (src/app.py:223-228): delete the children
subtrees depth-first, then the page's blocks, then the page row.  The
Python recursion is unbounded; it terminates exactly on stores whose
parent edges are acyclic, where the recursion depth is at most the number
of pages, so the embedding carries that much fuel (exhausted fuel stops
the walk, which never happens on an acyclic store with enough fuel). -/
def delete_page_recursive : Nat → DB → String → DB
  | 0, s, _ => s
  | fuel + 1, s, pid =>
      let children := s.pages.filter (fun p => p.parent_id = some pid)
      let s1 := children.foldl (fun st c => delete_page_recursive fuel st c.id) s
      sqlDeletePage (deleteBlocksOfPage s1 pid) pid

/-- Handler `DELETE /api/pages/<page_id>` (src/app.py:212-221).  The handler body
is exactly one unrolling of `delete_page_recursive`: recurse into each
child, then delete the page's blocks and the page row.  It replies ok even
when the id resolves to nothing. -/
def delete_page (s : DB) (pid : String) : DB × Outcome Unit :=
  (delete_page_recursive (s.pages.length + 1) s pid, .ok ())

/-- Handler `PUT /api/pages/reorder` (src/app.py:230-238): the i-th id in `order`
gets `sort_order = i`; ids that match no row are ignored; no `updated_at`
stamp, no sibling-scope check. -/
def reorder_pages (s : DB) (order : List String) : DB × Outcome Unit :=
  (order.enum.foldl (fun st ip =>
      { st with pages := (st.pages.map
          (fun p => if p.id = ip.2 then { p with sort_order := (ip.1 : Int) } else p)) }) s,
   .ok ())

/-- Handler `GET /api/pages/<page_id>/blocks` (src/app.py:242-248). -/
def get_blocks (s : DB) (pid : String) : List Block :=
  (s.blocks.filter (fun b => b.page_id = pid)).mergeSort blockLE

/-- Request body of `POST /api/pages/<page_id>/blocks` (src/app.py:252-258). -/
structure CreateBlockInput where
  id : Option String := none
  type : String := "text"
  content : String := ""
  properties : Props := []
  after_id : Option String := none
  indent_level : Int := 0
  deriving DecidableEq, Repr

/-- Handler `POST /api/pages/<page_id>/blocks` (src/app.py:250-285).  A truthy
`after_id` that resolves (globally, with no check that it belongs to this
page) puts the new block at that block's `sort_order + 1` and shifts every
block of this page at or above that position up by one; otherwise the block
is appended at `max(sort_order)+1` of this page.  The owning page's
`updated_at` is stamped.  A primary-key clash on the block id or a
`page_id` that references no page aborts the request before its commit. -/
def create_block (s : DB) (t : Nat) (page_id : String) (genBlockId : String)
    (d : CreateBlockInput) : DB × Outcome Block :=
  let block_id := d.id.getD genBlockId
  if (s.blocks.any (fun b => b.id = block_id)) ∨ ¬ (s.pages.any (fun p => p.id = page_id)) then
    (s, .err)
  else
    let shifted : Int × List Block :=
      if truthy d.after_id then
        match s.blocks.find? (fun b => some b.id = d.after_id) with
        | some ab =>
            (ab.sort_order + 1,
             s.blocks.map (fun b =>
               if b.page_id = page_id ∧ b.sort_order ≥ ab.sort_order + 1 then
                 { b with sort_order := b.sort_order + 1 }
               else b))
        | none =>
            (maxSortD ((s.blocks.filter (fun b => b.page_id = page_id)).map (·.sort_order)) + 1,
             s.blocks)
      else
        (maxSortD ((s.blocks.filter (fun b => b.page_id = page_id)).map (·.sort_order)) + 1,
         s.blocks)
    let newBlock : Block :=
      { id := block_id, page_id := page_id, type := d.type, content := d.content,
        properties := d.properties, sort_order := shifted.1,
        indent_level := d.indent_level, created_at := t }
    (stampPage { s with blocks := shifted.2 ++ [newBlock] } t page_id, .ok newBlock)

/-- Request body of `PUT /api/blocks/<block_id>` (src/app.py:296-302). -/
structure UpdateBlockInput where
  type : Option String := none
  content : Option String := none
  sort_order : Option Int := none
  indent_level : Option Int := none
  properties : Option Props := none
  deriving DecidableEq, Repr

def UpdateBlockInput.hasField (d : UpdateBlockInput) : Bool :=
  d.type.isSome || d.content.isSome || d.sort_order.isSome ||
  d.indent_level.isSome || d.properties.isSome

/-- Handler `PUT /api/blocks/<block_id>` (src/app.py:287-310): 404 when missing;
otherwise supplied fields are written (`properties` is replaced wholesale)
and the owning page's `updated_at` is stamped. -/
def update_block (s : DB) (t : Nat) (bid : String) (d : UpdateBlockInput) :
    DB × Outcome (Option Block) :=
  match s.blocks.find? (fun b => b.id = bid) with
  | none => (s, .notFound)
  | some blk =>
      let s2 :=
        if d.hasField then
          stampPage
            { s with blocks := s.blocks.map (fun b =>
                if b.id = bid then
                  { b with
                    type := d.type.getD b.type,
                    content := d.content.getD b.content,
                    sort_order := d.sort_order.getD b.sort_order,
                    indent_level := d.indent_level.getD b.indent_level,
                    properties := d.properties.getD b.properties }
                else b) }
            t blk.page_id
        else s
      (s2, .ok (s2.blocks.find? (fun b => b.id = bid)))

/-- Handler `DELETE /api/blocks/<block_id>` (src/app.py:312-320): deletes the row
and stamps the owning page when the id resolves, and replies ok either way. -/
def delete_block (s : DB) (t : Nat) (bid : String) : DB × Outcome Unit :=
  match s.blocks.find? (fun b => b.id = bid) with
  | none => (s, .ok ())
  | some blk =>
      (stampPage { s with blocks := s.blocks.filter (fun b => b.id ≠ bid) } t blk.page_id,
       .ok ())

/-- Handler `PUT /api/pages/<page_id>/blocks/reorder` (src/app.py:322-331): the
i-th id gets `sort_order = i`, scoped to this page; the page is stamped. -/
def reorder_blocks (s : DB) (t : Nat) (pid : String) (order : List String) :
    DB × Outcome Unit :=
  (stampPage
    (order.enum.foldl (fun st ip =>
      { st with blocks := (st.blocks.map
          (fun b => if b.id = ip.2 ∧ b.page_id = pid then { b with sort_order := (ip.1 : Int) } else b)) }) s)
    t pid,
   .ok ())

/-- The canned schema for `workspace == 'projects'` (src/app.py:373-396);
`gen` enumerates the successive `gen_id()` results. -/
def projectsDefaultSchema (gen : Nat → String) : List SchemaProp :=
  [{ id := gen 1, name := "Status", type := "select",
     options := [
       { id := gen 2, name := "Not Started", color := "#6B7280" },
       { id := gen 3, name := "In Progress", color := "#3B82F6" },
       { id := gen 4, name := "Done", color := "#10B981" },
       { id := gen 5, name := "Blocked", color := "#EF4444" }] },
   { id := gen 6, name := "Priority", type := "select",
     options := [
       { id := gen 7, name := "Low", color := "#6B7280" },
       { id := gen 8, name := "Medium", color := "#F59E0B" },
       { id := gen 9, name := "High", color := "#EF4444" },
       { id := gen 10, name := "Urgent", color := "#DC2626" }] },
   { id := gen 11, name := "Due Date", type := "date" },
   { id := gen 12, name := "Assignee", type := "text" },
   { id := gen 13, name := "Tags", type := "multi_select",
     options := [
       { id := gen 14, name := "Bug", color := "#EF4444" },
       { id := gen 15, name := "Feature", color := "#3B82F6" },
       { id := gen 16, name := "Improvement", color := "#10B981" }] }]

/-- The canned schema for `workspace == 'wiki'` (src/app.py:399-416). -/
def wikiDefaultSchema (gen : Nat → String) : List SchemaProp :=
  [{ id := gen 1, name := "Status", type := "select",
     options := [
       { id := gen 2, name := "Draft", color := "#6B7280" },
       { id := gen 3, name := "In Review", color := "#F59E0B" },
       { id := gen 4, name := "Published", color := "#10B981" }] },
   { id := gen 5, name := "Category", type := "select",
     options := [
       { id := gen 6, name := "General", color := "#6B7280" },
       { id := gen 7, name := "Technical", color := "#3B82F6" },
       { id := gen 8, name := "Process", color := "#10B981" },
       { id := gen 9, name := "Reference", color := "#8B5CF6" }] },
   { id := gen 10, name := "Owner", type := "text" },
   { id := gen 11, name := "Last Verified", type := "date" },
   { id := gen 12, name := "Tags", type := "multi_select", options := [] }]

/-- Request body of `POST /api/databases` (src/app.py:364-369,419-431). -/
structure CreateDatabaseInput where
  id : Option String := none
  title : String := "Untitled Database"
  icon : String := ""
  workspace : String := "projects"
  description : String := ""
  properties_schema : Option (List SchemaProp) := none
  default_view : Option String := none
  deriving DecidableEq, Repr

/-- Handler `POST /api/databases` (src/app.py:362-442): materialize the preset
schema for the `projects`/`wiki` workspaces when the body has none, store
the database row (its `default_view` column always takes the preset value,
src/app.py:427), and create one `Default` view whose type can be overridden
by the body and whose config groups a board by the first select property.
`gen 0` is the id used when the body has none, `gen 20` the view id. -/
def create_database (s : DB) (t : Nat) (gen : Nat → String) (d : CreateDatabaseInput) :
    DB × Outcome Database :=
  let db_id := d.id.getD (gen 0)
  let preset : List SchemaProp × String :=
    if d.workspace = "projects" then (projectsDefaultSchema gen, "board")
    else if d.workspace = "wiki" then (wikiDefaultSchema gen, "table")
    else (d.properties_schema.getD [], "table")
  let schema := d.properties_schema.getD preset.1
  let view_id := gen 20
  if (s.databases.any (fun r => r.id = db_id)) ∨ (s.db_views.any (fun v => v.id = view_id)) then
    (s, .err)
  else
    let view_type := d.default_view.getD preset.2
    let group_by : Option String :=
      match schema.head? with
      | some sp => if sp.type = "select" then some sp.id else none
      | none => none
    let view_config : Props :=
      match group_by with
      | some g => if view_type = "board" ∧ g ≠ "" then [("group_by", g)] else []
      | none => []
    let newDb : Database :=
      { id := db_id, title := d.title, icon := d.icon, workspace := d.workspace,
        description := d.description, properties_schema := schema,
        default_view := preset.2, created_at := t, updated_at := t }
    let newView : DbView :=
      { id := view_id, database_id := db_id, name := "Default", type := view_type,
        config := view_config, sort_order := 0 }
    ({ s with databases := s.databases ++ [newDb], db_views := s.db_views ++ [newView] },
     .ok newDb)

/-- Handler `GET /api/databases/<db_id>` (src/app.py:444-468): the database, its
items ordered by `sort_order, created_at`, its views ordered by `sort_order`. -/
def get_database (s : DB) (dbId : String) :
    Outcome (Database × List DbItem × List DbView) :=
  match s.databases.find? (fun r => r.id = dbId) with
  | none => .notFound
  | some db =>
      .ok (db, (s.db_items.filter (fun i => i.database_id = dbId)).mergeSort itemLE,
           (s.db_views.filter (fun v => v.database_id = dbId)).mergeSort viewLE)

/-- Request body of `PUT /api/databases/<db_id>` (src/app.py:475-481). -/
structure UpdateDatabaseInput where
  title : Option String := none
  icon : Option String := none
  description : Option String := none
  default_view : Option String := none
  properties_schema : Option (List SchemaProp) := none
  deriving DecidableEq, Repr

def UpdateDatabaseInput.hasField (d : UpdateDatabaseInput) : Bool :=
  d.title.isSome || d.icon.isSome || d.description.isSome ||
  d.default_view.isSome || d.properties_schema.isSome

/-- Handler `PUT /api/databases/<db_id>` (src/app.py:470-491): there is no
existence check; the UPDATE silently matches nothing for an unknown id and
the handler then subscripts the `None` re-fetch, raising after the commit —
an untyped 5xx, not a 404. -/
def update_database (s : DB) (t : Nat) (dbId : String) (d : UpdateDatabaseInput) :
    DB × Outcome Database :=
  let s2 :=
    if d.hasField then
      { s with databases := s.databases.map (fun r =>
          if r.id = dbId then
            { r with
              title := d.title.getD r.title,
              icon := d.icon.getD r.icon,
              description := d.description.getD r.description,
              default_view := d.default_view.getD r.default_view,
              properties_schema := d.properties_schema.getD r.properties_schema,
              updated_at := t }
          else r) }
    else s
  (s2, match s2.databases.find? (fun r => r.id = dbId) with
       | none => .err
       | some row => .ok row)

/-- Handler `DELETE /api/databases/<db_id>` (src/app.py:493-506): delete the blocks
and page backing each item (skipping falsy `page_id`s, src/app.py:499),
then the items, the views, and the database row; replies ok either way. -/
def delete_database (s : DB) (dbId : String) : DB × Outcome Unit :=
  let backing : List String :=
    (s.db_items.filter (fun i => i.database_id = dbId ∧ i.page_id ≠ none)).filterMap
      (fun i => match i.page_id with
        | some p => if p ≠ "" then some p else none
        | none => none)
  let s1 := backing.foldl (fun st pg => sqlDeletePage (deleteBlocksOfPage st pg) pg) s
  ({ s1 with
      db_items := s1.db_items.filter (fun i => i.database_id ≠ dbId),
      db_views := s1.db_views.filter (fun v => v.database_id ≠ dbId),
      databases := s1.databases.filter (fun r => r.id ≠ dbId) },
   .ok ())

/-- Request body of `PUT /api/databases/<db_id>/items/<item_id>`
(src/app.py:555-564). -/
structure UpdateItemInput where
  title : Option String := none
  icon : Option String := none
  sort_order : Option Int := none
  properties : Option Props := none
  deriving DecidableEq, Repr

def UpdateItemInput.hasField (d : UpdateItemInput) : Bool :=
  d.title.isSome || d.icon.isSome || d.sort_order.isSome || d.properties.isSome

/-- Handler `PUT /api/databases/<db_id>/items/<item_id>` (src/app.py:546-577):
the item is looked up by id AND database id (404 when that misses);
`properties` is merged into the stored mapping with `dict.update`; a
supplied title is also written to the backing page when `page_id` is truthy
(`if 'title' in data and item['page_id']:`, src/app.py:565 — an
empty-string `page_id` skips the sync), before the item row update; the
item's and the supplied database's `updated_at` are stamped. -/
def update_db_item (s : DB) (t : Nat) (dbId itemId : String) (d : UpdateItemInput) :
    DB × Outcome (Option DbItem) :=
  match s.db_items.find? (fun i => i.id = itemId ∧ i.database_id = dbId) with
  | none => (s, .notFound)
  | some item =>
      let newProps :=
        match d.properties with
        | some p => dictUpdate item.properties p
        | none => item.properties
      let s1 :=
        if d.title.isSome ∧ truthy item.page_id then
          { s with pages := s.pages.map (fun p =>
              if some p.id = item.page_id then { p with title := d.title.getD p.title } else p) }
        else s
      let s2 :=
        if d.hasField then
          stampDatabase
            { s1 with db_items := s1.db_items.map (fun i =>
                if i.id = itemId then
                  { i with
                    title := d.title.getD i.title,
                    icon := d.icon.getD i.icon,
                    sort_order := d.sort_order.getD i.sort_order,
                    properties := if d.properties.isSome then newProps else i.properties,
                    updated_at := t }
                else i) }
            t dbId
        else s1
      (s2, .ok (s2.db_items.find? (fun i => i.id = itemId)))

/-- Handler `DELETE /api/databases/<db_id>/items/<item_id>` (src/app.py:579-589):
the item is looked up by id only; its backing page's blocks and the backing
page are deleted when `page_id` is set, then the item row; the `updated_at`
stamp goes to the database id taken from the URL; replies ok either way. -/
def delete_db_item (s : DB) (t : Nat) (dbId itemId : String) : DB × Outcome Unit :=
  let s1 :=
    match s.db_items.find? (fun i => i.id = itemId) with
    | some item =>
        match item.page_id with
        | some pg =>
            if pg ≠ "" then sqlDeletePage (deleteBlocksOfPage s pg) pg else s
        | none => s
    | none => s
  let s2 := { s1 with db_items := s1.db_items.filter (fun i => i.id ≠ itemId) }
  (stampDatabase s2 t dbId, .ok ())

/-- Handler `PUT /api/databases/<db_id>/items/reorder` (src/app.py:591-599): the
i-th id gets `sort_order = i`; matched by id only, no database scope. -/
def reorder_db_items (s : DB) (order : List String) : DB × Outcome Unit :=
  (order.enum.foldl (fun st ip =>
      { st with db_items := (st.db_items.map
          (fun i => if i.id = ip.2 then { i with sort_order := (ip.1 : Int) } else i)) }) s,
   .ok ())

/-- Request body of `PUT /api/databases/<db_id>/views/<view_id>`
(src/app.py:626-633). -/
structure UpdateViewInput where
  name : Option String := none
  type : Option String := none
  sort_order : Option Int := none
  config : Option Props := none
  deriving DecidableEq, Repr

def UpdateViewInput.hasField (d : UpdateViewInput) : Bool :=
  d.name.isSome || d.type.isSome || d.sort_order.isSome || d.config.isSome

/-- Handler `PUT /api/databases/<db_id>/views/<view_id>` (src/app.py:622-641): the
URL's database id is never used; no existence check — an unknown view id
crashes on the `None` re-fetch after the commit (untyped 5xx, not 404); a
supplied `config` replaces the stored one wholesale; no `updated_at` stamp. -/
def update_db_view (s : DB) (dbId viewId : String) (d : UpdateViewInput) :
    DB × Outcome DbView :=
  let s2 :=
    if d.hasField then
      { s with db_views := s.db_views.map (fun v =>
          if v.id = viewId then
            { v with
              name := d.name.getD v.name,
              type := d.type.getD v.type,
              sort_order := d.sort_order.getD v.sort_order,
              config := d.config.getD v.config }
          else v) }
    else s
  (s2, match s2.db_views.find? (fun v => v.id = viewId) with
       | none => .err
       | some v => .ok v)

/-! ## General helper lemmas -/

/-- Lookup by `find?` commutes with a row-wise `UPDATE` whose predicate the update
does not change (e.g. lookups by id across an id-preserving `map`). -/
theorem find?_map_eq {α : Type} (l : List α) (f : α → α) (p : α → Bool)
    (hf : ∀ x, p (f x) = p x) : (l.map f).find? p = (l.find? p).map f := by
  induction l with
  | nil => rfl
  | cons a tl ih =>
      simp only [List.map_cons, List.find?]
      rw [hf a]
      cases h : p a <;> simp [h, ih]

/-- Looking up a key missed by every entry of an association list fails. -/
theorem lookup_eq_none_of_not_key (l : Props) (k : String) (h : k ∉ l.map Prod.fst) :
    l.lookup k = none := by
  induction l with
  | nil => rfl
  | cons a tl ih =>
      simp only [List.map_cons, List.mem_cons, not_or] at h
      have hbeq : (k == a.1) = false := by simp [beq_eq_false_iff_ne, h.1]
      simp only [List.lookup, hbeq]
      exact ih h.2

/-- Overwriting the entries at one key leaves lookups of other keys alone. -/
theorem lookup_map_overwrite (l : Props) (kv : String × String) (k : String)
    (hk : k ≠ kv.1) :
    (l.map (fun p => if p.1 = kv.1 then (p.1, kv.2) else p)).lookup k = l.lookup k := by
  induction l with
  | nil => rfl
  | cons a tl ih =>
      simp only [List.map_cons]
      by_cases ha : a.1 = kv.1
      · rw [if_pos ha]
        have hbeq : (k == a.1) = false := by
          simp [beq_eq_false_iff_ne]
          exact fun e => hk (e.trans ha)
        simp only [List.lookup, hbeq, ih]
      · rw [if_neg ha]
        simp only [List.lookup]
        cases hb : (k == a.1) <;> simp [hb, ih]

/-- Appending an entry for a different key leaves a lookup alone. -/
theorem lookup_append_single (l : Props) (kv : String × String) (k : String)
    (hk : k ≠ kv.1) :
    (l ++ [kv]).lookup k = l.lookup k := by
  induction l with
  | nil =>
      have hbeq : (k == kv.1) = false := by simp [beq_eq_false_iff_ne, hk]
      simp [List.lookup, hbeq]
  | cons a tl ih =>
      simp only [List.cons_append, List.lookup]
      cases hb : (k == a.1) <;> simp [hb, ih]

/-- One `dict.update` step: looking up the inserted key finds its value. -/
theorem dictStep_lookup_self (old : Props) (kv : String × String) :
    (if old.any (fun p => p.1 = kv.1) then
        old.map (fun p => if p.1 = kv.1 then (p.1, kv.2) else p)
      else old ++ [kv]).lookup kv.1 = some kv.2 := by
  by_cases h : old.any (fun p => p.1 = kv.1)
  · simp only [h, if_true]
    induction old with
    | nil => simp at h
    | cons a tl ih =>
        simp only [List.map_cons]
        by_cases ha : a.1 = kv.1
        · rw [if_pos ha]
          have hbeq : (kv.1 == a.1) = true := beq_iff_eq.mpr ha.symm
          simp [List.lookup, hbeq]
        · rw [if_neg ha]
          have htl : (tl.any fun p => decide (p.1 = kv.1)) = true := by
            simp only [List.any_cons, Bool.or_eq_true, decide_eq_true_eq] at h
            tauto
          have hbeq : (kv.1 == a.1) = false := by
            simp [beq_eq_false_iff_ne]
            exact fun e => ha e.symm
          simp only [List.lookup, hbeq]
          exact ih htl
  · simp only [h, if_false]
    induction old with
    | nil => simp [List.lookup]
    | cons a tl ih =>
        simp only [List.any_cons, Bool.or_eq_true, decide_eq_true_eq, not_or] at h
        have hbeq : (kv.1 == a.1) = false := by
          simp [beq_eq_false_iff_ne]
          exact fun e => h.1 e.symm
        simp only [List.cons_append, List.lookup, hbeq]
        exact ih (by simpa using h.2)

/-- One `dict.update` step: other keys look up as before. -/
theorem dictStep_lookup_other (old : Props) (kv : String × String) (k : String)
    (hk : k ≠ kv.1) :
    (if old.any (fun p => p.1 = kv.1) then
        old.map (fun p => if p.1 = kv.1 then (p.1, kv.2) else p)
      else old ++ [kv]).lookup k = old.lookup k := by
  by_cases h : old.any (fun p => p.1 = kv.1)
  · rw [if_pos h, lookup_map_overwrite old kv k hk]
  · rw [if_neg h, lookup_append_single old kv k hk]

/-- Looking up a key after a Python `dict.update` returns the supplied
mapping's value when the key was supplied and the old value otherwise (the
supplied mapping is a parsed JSON object, hence has no repeated keys). -/
theorem dictUpdate_lookup (old new : Props) (hnd : (new.map Prod.fst).Nodup) (k : String) :
    (dictUpdate old new).lookup k = (new.lookup k).or (old.lookup k) := by
  induction new generalizing old with
  | nil => simp [dictUpdate, List.lookup]
  | cons kv rest ih =>
      simp only [List.map_cons, List.nodup_cons] at hnd
      have hstep : dictUpdate old (kv :: rest)
          = dictUpdate (if old.any (fun p => p.1 = kv.1) then
              old.map (fun p => if p.1 = kv.1 then (p.1, kv.2) else p)
            else old ++ [kv]) rest := rfl
      rw [hstep]
      by_cases hk : k = kv.1
      · have hbeq : (k == kv.1) = true := beq_iff_eq.mpr hk
        rw [ih _ hnd.2]
        have hrest : rest.lookup k = none :=
          lookup_eq_none_of_not_key rest k (by rw [hk]; exact hnd.1)
        rw [hrest]
        simp only [List.lookup, hbeq]
        rw [hk, dictStep_lookup_self old kv]
        simp [Option.or]
      · rw [ih _ hnd.2, dictStep_lookup_other old kv k hk]
        have hbeq : (k == kv.1) = false := by
          simp [beq_eq_false_iff_ne, hk]
        simp only [List.lookup, hbeq]

/-! ## C3 — item title updates synchronize the backing page's title -/

/-- C3: for every item with a backing page — a truthy `page_id`, the code's
own notion of a backing page existing (src/app.py:565) — updating the item
through `update_db_item` with a title `T` leaves the backing page's row
with title `T` in the same operation. -/
theorem updateItem_title_syncs_backing_page
    (s : DB) (t : Nat) (dbId itemId pg T : String) (d : UpdateItemInput) (item : DbItem)
    (hfind : s.db_items.find? (fun i => i.id = itemId ∧ i.database_id = dbId) = some item)
    (hpg : item.page_id = some pg) (hpgne : pg ≠ "")
    (hex : (s.pages.find? (fun p => p.id = pg)).isSome)
    (hT : d.title = some T) :
    ((update_db_item s t dbId itemId d).1.pages.find? (fun p => p.id = pg)).map Page.title
      = some T := by
  have hpages : (update_db_item s t dbId itemId d).1.pages
      = s.pages.map (fun p =>
          if some p.id = item.page_id then { p with title := d.title.getD p.title } else p) := by
    simp only [update_db_item, hfind]
    have hsome : d.title.isSome ∧ truthy item.page_id := by
      constructor
      · rw [hT]; rfl
      · rw [hpg]
        simp [truthy, hpgne]
    have hfield : d.hasField = true := by
      simp [UpdateItemInput.hasField, hT]
    simp [hsome, hfield, stampDatabase]
  rw [hpages, find?_map_eq]
  · obtain ⟨p0, hp0⟩ := Option.isSome_iff_exists.mp hex
    rw [hp0]
    have hid : p0.id = pg := by
      have := List.find?_some hp0
      simpa using this
    simp [Option.map, hpg, hid, hT]
  · intro x
    by_cases hx : some x.id = item.page_id <;> simp [hx]

def c3State : DB :=
  { pages := [{ id := "pg1", title := "Old" }],
    db_items := [{ id := "i1", database_id := "d1", page_id := some "pg1" }] }

/-- Witness for C3 on a one-item store. -/
theorem updateItem_title_syncs_backing_page_witness :
    ((update_db_item c3State 5 "d1" "i1" { title := some "New" }).1.pages.find?
        (fun p => p.id = "pg1")).map Page.title = some "New" :=
  updateItem_title_syncs_backing_page c3State 5 "d1" "i1" "pg1" "New"
    { title := some "New" } { id := "i1", database_id := "d1", page_id := some "pg1" }
    (by decide) (by decide) (by decide) (by decide) (by decide)

/-! ## C4 / C9 — block insertion with `after_id` -/

/-- What `create_block` does on the resolved-`after_id` path, computed once:
the new block lands at the anchor's `sort_order + 1` and the blocks of the
target page at or above that position are shifted up by one.  The anchor's
own `page_id` is never consulted (src/app.py:260-272). -/
theorem createBlock_after_core
    (s : DB) (t : Nat) (P gid aid : String) (d : CreateBlockInput) (X : Block)
    (haid : d.after_id = some aid) (hne : aid ≠ "")
    (hfind : s.blocks.find? (fun b => some b.id = d.after_id) = some X)
    (hpg : s.pages.any (fun p => p.id = P) = true)
    (hpk : s.blocks.any (fun b => b.id = d.id.getD gid) = false) :
    create_block s t P gid d
      = (stampPage { s with blocks :=
            (s.blocks.map (fun b =>
              if b.page_id = P ∧ b.sort_order ≥ X.sort_order + 1 then
                { b with sort_order := b.sort_order + 1 } else b)) ++
            [{ id := d.id.getD gid, page_id := P, type := d.type, content := d.content,
               properties := d.properties, sort_order := X.sort_order + 1,
               indent_level := d.indent_level, created_at := t }] } t P,
         .ok { id := d.id.getD gid, page_id := P, type := d.type, content := d.content,
               properties := d.properties, sort_order := X.sort_order + 1,
               indent_level := d.indent_level, created_at := t }) := by
  have htr : truthy d.after_id = true := by simp [haid, truthy, hne]
  simp only [create_block, htr, if_true, hfind]
  rw [if_neg]
  simp [hpk, hpg]

/-- An id-and-page-preserving row update does not change how many rows of a
page a filter by page id selects. -/
theorem filter_length_map_page (l : List Block) (P : String) (f : Block → Block)
    (hf : ∀ b, (f b).page_id = b.page_id) :
    ((l.map f).filter (fun b => b.page_id = P)).length
      = (l.filter (fun b => b.page_id = P)).length := by
  induction l with
  | nil => rfl
  | cons a tl ih =>
      simp only [List.map_cons, List.filter]
      rw [hf a]
      cases h : decide (a.page_id = P) <;> simp [h, ih]

/-- C4: creating a block on page P with `after_id` resolving to a block X of
P with `sort_order = k` puts the new block at `sort_order = k + 1`, shifts
every block of P previously at `sort_order ≥ k + 1` up by exactly one,
keeps blocks at `sort_order ≤ k` unchanged, and increases P's block count
by exactly one. -/
theorem createBlock_after_same_page
    (s : DB) (t : Nat) (P gid aid : String) (d : CreateBlockInput) (X : Block) (k : Int)
    (haid : d.after_id = some aid) (hne : aid ≠ "")
    (hfind : s.blocks.find? (fun b => some b.id = d.after_id) = some X)
    (hXpage : X.page_id = P) (hXsort : X.sort_order = k)
    (hpg : s.pages.any (fun p => p.id = P) = true)
    (hpk : s.blocks.any (fun b => b.id = d.id.getD gid) = false) :
    (create_block s t P gid d).2
        = .ok { id := d.id.getD gid, page_id := P, type := d.type, content := d.content,
                properties := d.properties, sort_order := k + 1,
                indent_level := d.indent_level, created_at := t }
      ∧ ((create_block s t P gid d).1.blocks.filter (fun b => b.page_id = P)).length
          = (s.blocks.filter (fun b => b.page_id = P)).length + 1
      ∧ (∀ b ∈ s.blocks, b.page_id = P → k + 1 ≤ b.sort_order →
          { b with sort_order := b.sort_order + 1 } ∈ (create_block s t P gid d).1.blocks)
      ∧ (∀ b ∈ s.blocks, b.page_id = P → b.sort_order ≤ k →
          b ∈ (create_block s t P gid d).1.blocks) := by
  subst hXsort
  have hcore := createBlock_after_core s t P gid aid d X haid hne hfind hpg hpk
  rw [hcore]
  refine ⟨rfl, ?_, ?_, ?_⟩
  · simp only [stampPage, List.filter_append, List.length_append]
    rw [filter_length_map_page]
    · simp
    · intro b
      by_cases hb : b.page_id = P ∧ b.sort_order ≥ X.sort_order + 1 <;> simp [hb]
  · intro b hb hbP hge
    simp only [stampPage]
    apply List.mem_append_left
    have : (if b.page_id = P ∧ b.sort_order ≥ X.sort_order + 1 then
        { b with sort_order := b.sort_order + 1 } else b) = { b with sort_order := b.sort_order + 1 } :=
      if_pos ⟨hbP, hge⟩
    rw [← this]
    exact List.mem_map_of_mem _ hb
  · intro b hb hbP hle
    simp only [stampPage]
    apply List.mem_append_left
    have : (if b.page_id = P ∧ b.sort_order ≥ X.sort_order + 1 then
        { b with sort_order := b.sort_order + 1 } else b) = b := by
      rw [if_neg]
      rintro ⟨-, hcon⟩
      omega
    rw [← this]
    exact List.mem_map_of_mem _ hb

def c4State : DB :=
  { pages := [{ id := "p" }],
    blocks := [{ id := "b1", page_id := "p", sort_order := 1 },
               { id := "b2", page_id := "p", sort_order := 2 }] }

def c4Input : CreateBlockInput := { after_id := some "b1" }

/-- Witness for C4: inserting after the first of two blocks. -/
theorem createBlock_after_same_page_witness :
    (create_block c4State 7 "p" "g9" c4Input).2
        = .ok { id := "g9", page_id := "p", type := "text", content := "",
                properties := [], sort_order := (1 : Int) + 1,
                indent_level := 0, created_at := 7 }
      ∧ ((create_block c4State 7 "p" "g9" c4Input).1.blocks.filter
            (fun b => b.page_id = "p")).length
          = (c4State.blocks.filter (fun b => b.page_id = "p")).length + 1
      ∧ (∀ b ∈ c4State.blocks, b.page_id = "p" → (1 : Int) + 1 ≤ b.sort_order →
          { b with sort_order := b.sort_order + 1 } ∈ (create_block c4State 7 "p" "g9" c4Input).1.blocks)
      ∧ (∀ b ∈ c4State.blocks, b.page_id = "p" → b.sort_order ≤ (1 : Int) →
          b ∈ (create_block c4State 7 "p" "g9" c4Input).1.blocks) :=
  createBlock_after_same_page c4State 7 "p" "g9" "b1" c4Input
    { id := "b1", page_id := "p", sort_order := 1 } 1
    (by decide) (by decide) (by decide) (by decide) (by decide) (by decide) (by decide)

/-- C9: when `after_id` resolves to a block X of a *different* page Q, the
insert-in-middle path still runs against page P: the new block is created
in P at X's `sort_order + 1` and P's blocks at or above that position shift
up by one — the handler never checks that X belongs to P
(src/app.py:260-272). -/
theorem createBlock_after_foreign_page
    (s : DB) (t : Nat) (P Q gid aid : String) (d : CreateBlockInput) (X : Block) (k : Int)
    (haid : d.after_id = some aid) (hne : aid ≠ "")
    (hfind : s.blocks.find? (fun b => some b.id = d.after_id) = some X)
    (hXpage : X.page_id = Q) (hQP : Q ≠ P) (hXsort : X.sort_order = k)
    (hpg : s.pages.any (fun p => p.id = P) = true)
    (hpk : s.blocks.any (fun b => b.id = d.id.getD gid) = false) :
    (create_block s t P gid d).2
        = .ok { id := d.id.getD gid, page_id := P, type := d.type, content := d.content,
                properties := d.properties, sort_order := k + 1,
                indent_level := d.indent_level, created_at := t }
      ∧ ((create_block s t P gid d).1.blocks.filter (fun b => b.page_id = P)).length
          = (s.blocks.filter (fun b => b.page_id = P)).length + 1
      ∧ (∀ b ∈ s.blocks, b.page_id = P → k + 1 ≤ b.sort_order →
          { b with sort_order := b.sort_order + 1 } ∈ (create_block s t P gid d).1.blocks) := by
  subst hXsort
  have hcore := createBlock_after_core s t P gid aid d X haid hne hfind hpg hpk
  rw [hcore]
  refine ⟨rfl, ?_, ?_⟩
  · simp only [stampPage, List.filter_append, List.length_append]
    rw [filter_length_map_page]
    · simp
    · intro b
      by_cases hb : b.page_id = P ∧ b.sort_order ≥ X.sort_order + 1 <;> simp [hb]
  · intro b hb hbP hge
    simp only [stampPage]
    apply List.mem_append_left
    have : (if b.page_id = P ∧ b.sort_order ≥ X.sort_order + 1 then
        { b with sort_order := b.sort_order + 1 } else b) = { b with sort_order := b.sort_order + 1 } :=
      if_pos ⟨hbP, hge⟩
    rw [← this]
    exact List.mem_map_of_mem _ hb

def c9State : DB :=
  { pages := [{ id := "p" }, { id := "q" }],
    blocks := [{ id := "qb", page_id := "q", sort_order := 5 },
               { id := "pb", page_id := "p", sort_order := 6 }] }

def c9Input : CreateBlockInput := { after_id := some "qb" }

/-- Witness for C9: the anchor lives on page q, the insert happens on p. -/
theorem createBlock_after_foreign_page_witness :
    (create_block c9State 3 "p" "g7" c9Input).2
        = .ok { id := "g7", page_id := "p", type := "text", content := "",
                properties := [], sort_order := (5 : Int) + 1,
                indent_level := 0, created_at := 3 }
      ∧ ((create_block c9State 3 "p" "g7" c9Input).1.blocks.filter
            (fun b => b.page_id = "p")).length
          = (c9State.blocks.filter (fun b => b.page_id = "p")).length + 1
      ∧ (∀ b ∈ c9State.blocks, b.page_id = "p" → (5 : Int) + 1 ≤ b.sort_order →
          { b with sort_order := b.sort_order + 1 } ∈ (create_block c9State 3 "p" "g7" c9Input).1.blocks) :=
  createBlock_after_foreign_page c9State 3 "p" "q" "g7" "qb" c9Input
    { id := "qb", page_id := "q", sort_order := 5 } 5
    (by decide) (by decide) (by decide) (by decide) (by decide) (by decide) (by decide) (by decide)

/-! ## C5 — item properties merge, view config replaces -/

/-- C5: an item update with a `properties` mapping shallow-merges it into
the stored properties — supplied keys win, keys not supplied keep their old
value — while a view update with a `config` mapping replaces the stored
config with exactly the supplied value. -/
theorem updateItem_merges_updateView_replaces
    (s : DB) (t : Nat) (dbId itemId : String) (d : UpdateItemInput) (item : DbItem) (P : Props)
    (hfind : s.db_items.find? (fun i => i.id = itemId ∧ i.database_id = dbId) = some item)
    (hP : d.properties = some P) (hnd : (P.map Prod.fst).Nodup)
    (s2 : DB) (dbId2 viewId : String) (d2 : UpdateViewInput) (C : Props)
    (hvex : (s2.db_views.find? (fun v => v.id = viewId)).isSome)
    (hC : d2.config = some C) :
    (((update_db_item s t dbId itemId d).1.db_items.find? (fun i => i.id = itemId)).map
        DbItem.properties = some (dictUpdate item.properties P)
      ∧ ∀ k, (dictUpdate item.properties P).lookup k
          = (P.lookup k).or (item.properties.lookup k))
    ∧ ((update_db_view s2 dbId2 viewId d2).1.db_views.find? (fun v => v.id = viewId)).map
        DbView.config = some C := by
  refine ⟨⟨?_, fun k => dictUpdate_lookup _ _ hnd k⟩, ?_⟩
  · have hfield : d.hasField = true := by simp [UpdateItemInput.hasField, hP]
    have hitems : (update_db_item s t dbId itemId d).1.db_items
        = s.db_items.map (fun i =>
            if i.id = itemId then
              { i with
                title := d.title.getD i.title,
                icon := d.icon.getD i.icon,
                sort_order := d.sort_order.getD i.sort_order,
                properties := dictUpdate item.properties P,
                updated_at := t }
            else i) := by
      simp only [update_db_item, hfind]
      by_cases hti : d.title.isSome ∧ truthy item.page_id <;>
        simp [hti, hfield, hP, stampDatabase]
    rw [hitems, find?_map_eq]
    · have hmem : item ∈ s.db_items := List.mem_of_find?_eq_some hfind
      have hpred : item.id = itemId := by
        have := List.find?_some hfind
        simp at this
        exact this.1
      obtain ⟨i0, hi0⟩ : ∃ i0, s.db_items.find? (fun i => i.id = itemId) = some i0 := by
        cases hfq : s.db_items.find? (fun i => i.id = itemId) with
        | some i0 => exact ⟨i0, rfl⟩
        | none =>
            exfalso
            have := List.find?_eq_none.mp hfq item hmem
            simp [hpred] at this
      rw [hi0]
      have hid0 : i0.id = itemId := by
        have := List.find?_some hi0
        simpa using this
      simp [hid0]
    · intro x
      by_cases hx : x.id = itemId <;> simp [hx]
  · have hfield2 : d2.hasField = true := by simp [UpdateViewInput.hasField, hC]
    have hviews : (update_db_view s2 dbId2 viewId d2).1.db_views
        = s2.db_views.map (fun v =>
            if v.id = viewId then
              { v with
                name := d2.name.getD v.name,
                type := d2.type.getD v.type,
                sort_order := d2.sort_order.getD v.sort_order,
                config := C }
            else v) := by
      simp [update_db_view, hfield2, hC]
    rw [hviews, find?_map_eq]
    · obtain ⟨v0, hv0⟩ := Option.isSome_iff_exists.mp hvex
      rw [hv0]
      have hid : v0.id = viewId := by
        have := List.find?_some hv0
        simpa using this
      simp [hid]
    · intro x
      by_cases hx : x.id = viewId <;> simp [hx]

def c5State : DB :=
  { db_items := [{ id := "i1", database_id := "d1",
                   properties := [("p1", "v1"), ("p2", "v3")] }],
    db_views := [{ id := "v1", database_id := "d1", config := [("p1", "v1")] }] }

/-- Witness for C5 on concrete mappings. -/
theorem updateItem_merges_updateView_replaces_witness :
    (((update_db_item c5State 4 "d1" "i1"
          { properties := some [("p1", "v2")] }).1.db_items.find?
            (fun i => i.id = "i1")).map DbItem.properties
        = some (dictUpdate [("p1", "v1"), ("p2", "v3")] [("p1", "v2")])
      ∧ ∀ k, (dictUpdate [("p1", "v1"), ("p2", "v3")] [("p1", "v2")]).lookup k
          = (([("p1", "v2")] : Props).lookup k).or
              (([("p1", "v1"), ("p2", "v3")] : Props).lookup k))
    ∧ ((update_db_view c5State "d1" "v1"
          { config := some [("g", "h")] }).1.db_views.find?
            (fun v => v.id = "v1")).map DbView.config = some [("g", "h")] :=
  updateItem_merges_updateView_replaces c5State 4 "d1" "i1"
    { properties := some [("p1", "v2")] }
    { id := "i1", database_id := "d1", properties := [("p1", "v1"), ("p2", "v3")] }
    [("p1", "v2")] (by decide) (by decide) (by decide)
    c5State "d1" "v1" { config := some [("g", "h")] } [("g", "h")]
    (by decide) (by decide)

/-! ## C10 — delete item ignores the supplied database id -/

/-- C10: `delete_db_item` looks the item up by id only, so when the URL's
database id differs from the item's owner the item and its backing page
(with that page's blocks) are still deleted, the reply is ok (no NotFound),
and the `updated_at` stamp lands on the supplied database while the owning
database row is left untouched. -/
theorem deleteItem_ignores_database_scope
    (s : DB) (t : Nat) (dSupplied itemId pg : String) (item : DbItem) (drow : Database)
    (hfind : s.db_items.find? (fun i => i.id = itemId) = some item)
    (howner : item.database_id ≠ dSupplied)
    (hpg : item.page_id = some pg) (hpgne : pg ≠ "")
    (hown : s.databases.find? (fun r => r.id = item.database_id) = some drow) :
    (delete_db_item s t dSupplied itemId).2 = .ok ()
    ∧ (∀ i ∈ (delete_db_item s t dSupplied itemId).1.db_items, i.id ≠ itemId)
    ∧ (∀ p ∈ (delete_db_item s t dSupplied itemId).1.pages, p.id ≠ pg)
    ∧ (∀ b ∈ (delete_db_item s t dSupplied itemId).1.blocks, b.page_id ≠ pg)
    ∧ ((delete_db_item s t dSupplied itemId).1.databases.find?
          (fun r => r.id = dSupplied)).map Database.updated_at
        = (s.databases.find? (fun r => r.id = dSupplied)).map (fun _ => t)
    ∧ (delete_db_item s t dSupplied itemId).1.databases.find?
          (fun r => r.id = item.database_id) = some drow := by
  have hres : (delete_db_item s t dSupplied itemId).1
      = stampDatabase
          { (sqlDeletePage (deleteBlocksOfPage s pg) pg) with
            db_items := ((sqlDeletePage (deleteBlocksOfPage s pg) pg).db_items.filter
              (fun i => i.id ≠ itemId)) } t dSupplied := by
    simp [delete_db_item, hfind, hpg, hpgne]
  refine ⟨rfl, ?_, ?_, ?_, ?_, ?_⟩
  · intro i hi
    rw [hres] at hi
    simp only [stampDatabase] at hi
    have := List.of_mem_filter hi
    simpa using this
  · intro p hp
    rw [hres] at hp
    simp only [stampDatabase, sqlDeletePage, deleteBlocksOfPage] at hp
    obtain ⟨q, hq, hqe⟩ := List.mem_map.mp hp
    have hqne : q.id ≠ pg := by
      have := List.of_mem_filter hq
      simpa using this
    intro hcon
    apply hqne
    rw [← hcon, ← hqe]
    by_cases hpar : q.parent_id = some pg <;> simp [hpar]
  · intro b hb
    rw [hres] at hb
    simp only [stampDatabase, sqlDeletePage, deleteBlocksOfPage] at hb
    have := List.of_mem_filter hb
    simpa using this
  · rw [hres]
    simp only [stampDatabase, sqlDeletePage, deleteBlocksOfPage]
    rw [find?_map_eq]
    · cases hfq : s.databases.find? (fun r => r.id = dSupplied) with
      | none => simp
      | some r =>
          have hid : r.id = dSupplied := by
            have := List.find?_some hfq
            simpa using this
          simp [hid]
    · intro x
      by_cases hx : x.id = dSupplied <;> simp [hx]
  · rw [hres]
    simp only [stampDatabase, sqlDeletePage, deleteBlocksOfPage]
    rw [find?_map_eq]
    · rw [hown]
      have hid : drow.id = item.database_id := by
        have := List.find?_some hown
        simpa using this
      have : ¬ drow.id = dSupplied := by
        rw [hid]
        exact howner
      simp [this]
    · intro x
      by_cases hx : x.id = dSupplied <;> simp [hx]

def c10State : DB :=
  { pages := [{ id := "pg1" }],
    blocks := [{ id := "b1", page_id := "pg1" }],
    databases := [{ id := "dOwn", updated_at := 1 }, { id := "dOther", updated_at := 1 }],
    db_items := [{ id := "i1", database_id := "dOwn", page_id := some "pg1" }] }

/-- Witness for C10: the URL names `dOther`, the item belongs to `dOwn`. -/
theorem deleteItem_ignores_database_scope_witness :
    (delete_db_item c10State 9 "dOther" "i1").2 = .ok ()
    ∧ (∀ i ∈ (delete_db_item c10State 9 "dOther" "i1").1.db_items, i.id ≠ "i1")
    ∧ (∀ p ∈ (delete_db_item c10State 9 "dOther" "i1").1.pages, p.id ≠ "pg1")
    ∧ (∀ b ∈ (delete_db_item c10State 9 "dOther" "i1").1.blocks, b.page_id ≠ "pg1")
    ∧ ((delete_db_item c10State 9 "dOther" "i1").1.databases.find?
          (fun r => r.id = "dOther")).map Database.updated_at
        = (c10State.databases.find? (fun r => r.id = "dOther")).map (fun _ => 9)
    ∧ (delete_db_item c10State 9 "dOther" "i1").1.databases.find?
          (fun r => r.id = "dOwn") = some { id := "dOwn", updated_at := 1 } := by
  have h := deleteItem_ignores_database_scope c10State 9 "dOther" "i1" "pg1"
    { id := "i1", database_id := "dOwn", page_id := some "pg1" }
    { id := "dOwn", updated_at := 1 }
    (by decide) (by decide) (by decide) (by decide) (by decide)
  exact h

/-! ## C2 — outcome of operations on ids that do not resolve -/

def emptyStore : DB := {}

/-- C2 counterexample: on the empty store, the database update operation on
an id that resolves to no row yields an untyped error (the handler
subscripts the `None` re-fetch, src/app.py:488-490), not the typed NotFound
the claim requires of every update-by-id operation. -/
theorem updateDatabase_missing_id_not_notFound :
    (update_database emptyStore 0 "zzz" { title := some "t" }).2 = Outcome.err
    ∧ (update_database emptyStore 0 "zzz" { title := some "t" }).2
        ≠ (Outcome.notFound : Outcome Database) := by
  constructor <;> decide

/-- C2 (amended): when the given id does not resolve to a live row, the
get operations (page, database) and the update operations on pages, blocks
and items return a typed NotFound; the update operations on databases and
views fail with an untyped error instead; and every delete operation
reports success silently. -/
theorem missing_id_outcomes
    (s : DB) (t : Nat) (px bx dx ix vx dbAny dbAny2 dbAny3 : String)
    (dPage : UpdatePageInput) (dBlock : UpdateBlockInput)
    (dDb : UpdateDatabaseInput) (dItem : UpdateItemInput) (dView : UpdateViewInput)
    (hp : s.pages.all (fun p => p.id ≠ px) = true)
    (hb : s.blocks.all (fun b => b.id ≠ bx) = true)
    (hd : s.databases.all (fun r => r.id ≠ dx) = true)
    (hi : s.db_items.all (fun i => i.id ≠ ix) = true)
    (hv : s.db_views.all (fun v => v.id ≠ vx) = true) :
    get_page s px = .notFound
    ∧ (update_page s t px dPage).2 = .notFound
    ∧ (delete_page s px).2 = .ok ()
    ∧ (update_block s t bx dBlock).2 = .notFound
    ∧ (delete_block s t bx).2 = .ok ()
    ∧ get_database s dx = .notFound
    ∧ (update_database s t dx dDb).2 = .err
    ∧ (delete_database s dx).2 = .ok ()
    ∧ (update_db_item s t dbAny ix dItem).2 = .notFound
    ∧ (delete_db_item s t dbAny2 ix).2 = .ok ()
    ∧ (update_db_view s dbAny3 vx dView).2 = .err := by
  have hpf : s.pages.find? (fun p => p.id = px) = none := by
    rw [List.find?_eq_none]
    intro x hx
    have := List.all_eq_true.mp hp x hx
    simpa using this
  have hbf : s.blocks.find? (fun b => b.id = bx) = none := by
    rw [List.find?_eq_none]
    intro x hx
    have := List.all_eq_true.mp hb x hx
    simpa using this
  have hdf : ∀ l : List Database, (∀ x ∈ l, x.id ≠ dx) →
      l.find? (fun r => r.id = dx) = none := by
    intro l h
    rw [List.find?_eq_none]
    intro x hx
    simpa using h x hx
  have hif : s.db_items.find? (fun i => i.id = ix ∧ i.database_id = dbAny) = none := by
    rw [List.find?_eq_none]
    intro x hx
    have := List.all_eq_true.mp hi x hx
    simp at this
    simp [this]
  have hif2 : s.db_items.find? (fun i => i.id = ix) = none := by
    rw [List.find?_eq_none]
    intro x hx
    have := List.all_eq_true.mp hi x hx
    simpa using this
  have hvf : ∀ l : List DbView, (∀ x ∈ l, x.id ≠ vx) →
      l.find? (fun v => v.id = vx) = none := by
    intro l h
    rw [List.find?_eq_none]
    intro x hx
    simpa using h x hx
  refine ⟨?_, ?_, rfl, ?_, ?_, ?_, ?_, rfl, ?_, ?_, ?_⟩
  · simp [get_page, hpf]
  · simp [update_page, hpf]
  · simp [update_block, hbf]
  · simp [delete_block, hbf]
  · simp [get_database, hdf s.databases (fun x hx => by simpa using List.all_eq_true.mp hd x hx)]
  · by_cases hfield : dDb.hasField
    · have : (update_database s t dx dDb).1.databases.find? (fun r => r.id = dx) = none := by
        simp only [update_database, hfield, if_true]
        rw [find?_map_eq]
        · rw [hdf s.databases (fun x hx => by simpa using List.all_eq_true.mp hd x hx)]
          rfl
        · intro x
          by_cases hx : x.id = dx <;> simp [hx]
      simp only [update_database] at this ⊢
      rw [this]
    · have : (update_database s t dx dDb).1.databases.find? (fun r => r.id = dx) = none := by
        simp only [update_database, hfield, if_false]
        exact hdf s.databases (fun x hx => by simpa using List.all_eq_true.mp hd x hx)
      simp only [update_database] at this ⊢
      rw [this]
  · simp only [update_db_item]
    rw [hif]
  · rfl
  · by_cases hfield : dView.hasField
    · have : (update_db_view s dbAny3 vx dView).1.db_views.find? (fun v => v.id = vx) = none := by
        simp only [update_db_view, hfield, if_true]
        rw [find?_map_eq]
        · rw [hvf s.db_views (fun x hx => by simpa using List.all_eq_true.mp hv x hx)]
          rfl
        · intro x
          by_cases hx : x.id = vx <;> simp [hx]
      simp only [update_db_view] at this ⊢
      rw [this]
    · have : (update_db_view s dbAny3 vx dView).1.db_views.find? (fun v => v.id = vx) = none := by
        simp only [update_db_view, hfield, if_false]
        exact hvf s.db_views (fun x hx => by simpa using List.all_eq_true.mp hv x hx)
      simp only [update_db_view] at this ⊢
      rw [this]

def c2State : DB :=
  { pages := [{ id := "p1" }], blocks := [{ id := "b1", page_id := "p1" }] }

/-- Witness for the amended C2 on a small store and unresolvable ids. -/
theorem missing_id_outcomes_witness :
    get_page c2State "nx" = .notFound
    ∧ (update_page c2State 3 "nx" { title := some "t" }).2 = .notFound
    ∧ (delete_page c2State "nx").2 = .ok ()
    ∧ (update_block c2State 3 "nb" { content := some "c" }).2 = .notFound
    ∧ (delete_block c2State 3 "nb").2 = .ok ()
    ∧ get_database c2State "nd" = .notFound
    ∧ (update_database c2State 3 "nd" { title := some "t" }).2 = .err
    ∧ (delete_database c2State "nd").2 = .ok ()
    ∧ (update_db_item c2State 3 "da" "ni" { title := some "t" }).2 = .notFound
    ∧ (delete_db_item c2State 3 "db" "ni").2 = .ok ()
    ∧ (update_db_view c2State "dc" "nv" { name := some "n" }).2 = .err :=
  missing_id_outcomes c2State 3 "nx" "nb" "nd" "ni" "nv" "da" "db" "dc"
    { title := some "t" } { content := some "c" } { title := some "t" }
    { title := some "t" } { name := some "n" }
    (by decide) (by decide) (by decide) (by decide) (by decide)

/-! ## C6 — default schema and view for a "projects" database -/

def c6Gen : Nat → String := fun n => "g" ++ toString n

/-- C6 counterexample: a body with workspace "projects" and no explicit
schema may still carry an explicit `default_view`; with `"table"` there the
single created view has type "table" and an empty config, not the "board"
view with a group_by that the claim promises for every such call
(src/app.py:431-433). -/
theorem createDatabase_projects_explicit_view_not_board :
    ((create_database emptyStore 0 c6Gen
        { workspace := "projects", default_view := some "table" }).1.db_views.map
          (fun v => (v.type, v.config))) = [("table", [])]
    ∧ "table" ≠ "board" := by
  constructor <;> decide

/-- C6 (amended): creating a database with workspace "projects", no explicit
schema, and no explicit default view stores a `properties_schema` whose
first property is named "Status" of type select with exactly four options,
and creates a Default view of type "board" whose config's `group_by` is
that Status property's id. -/
theorem createDatabase_projects_defaults
    (s : DB) (t : Nat) (gen : Nat → String) (d : CreateDatabaseInput)
    (hws : d.workspace = "projects") (hschema : d.properties_schema = none)
    (hview : d.default_view = none)
    (hpk : s.databases.any (fun r => r.id = d.id.getD (gen 0)) = false)
    (hvk : s.db_views.any (fun v => v.id = gen 20) = false)
    (hgne : gen 1 ≠ "") :
    ∃ row, (create_database s t gen d).2 = .ok row
      ∧ row ∈ (create_database s t gen d).1.databases
      ∧ ∃ sp, row.properties_schema.head? = some sp
          ∧ sp.name = "Status" ∧ sp.type = "select" ∧ sp.options.length = 4
          ∧ { id := gen 20, database_id := row.id, name := "Default", type := "board",
              config := [("group_by", sp.id)], sort_order := 0 }
              ∈ (create_database s t gen d).1.db_views := by
  have hres : create_database s t gen d
      = ({ s with
            databases := s.databases ++
              [{ id := d.id.getD (gen 0), title := d.title, icon := d.icon,
                 workspace := d.workspace, description := d.description,
                 properties_schema := projectsDefaultSchema gen,
                 default_view := "board", created_at := t, updated_at := t }],
            db_views := s.db_views ++
              [{ id := gen 20, database_id := d.id.getD (gen 0), name := "Default",
                 type := "board", config := [("group_by", gen 1)], sort_order := 0 }] },
         .ok { id := d.id.getD (gen 0), title := d.title, icon := d.icon,
               workspace := d.workspace, description := d.description,
               properties_schema := projectsDefaultSchema gen,
               default_view := "board", created_at := t, updated_at := t }) := by
    simp only [create_database, hws, hschema, hview, if_true, if_pos rfl]
    rw [if_neg]
    · simp [projectsDefaultSchema, Option.getD, hgne]
    · simp [hpk, hvk]
  rw [hres]
  refine ⟨_, rfl, ?_, ?_⟩
  · exact List.mem_append_right _ (by simp)
  · refine ⟨_, rfl, rfl, rfl, rfl, ?_⟩
    exact List.mem_append_right _ (List.mem_singleton.mpr rfl)

/-- Witness for the amended C6 on the empty store. -/
theorem createDatabase_projects_defaults_witness :
    ∃ row, (create_database emptyStore 2 c6Gen { workspace := "projects" }).2 = .ok row
      ∧ row ∈ (create_database emptyStore 2 c6Gen { workspace := "projects" }).1.databases
      ∧ ∃ sp, row.properties_schema.head? = some sp
          ∧ sp.name = "Status" ∧ sp.type = "select" ∧ sp.options.length = 4
          ∧ { id := c6Gen 20, database_id := row.id, name := "Default", type := "board",
              config := [("group_by", sp.id)], sort_order := 0 }
              ∈ (create_database emptyStore 2 c6Gen { workspace := "projects" }).1.db_views :=
  createDatabase_projects_defaults emptyStore 2 c6Gen { workspace := "projects" }
    (by decide) (by decide) (by decide) (by decide) (by decide) (by decide)

/-! ## C7 — reorder assigns dense indices and listings respect them -/

/-- A three-element `mergeSort` with pairwise-ordered input is the input. -/
theorem mergeSort_three {α : Type} (le : α → α → Bool) (a b c : α)
    (h1 : le a b = true) (h2 : le b c = true) (h3 : le a c = true) :
    [a, b, c].mergeSort le = [a, b, c] := by
  simp [List.mergeSort, List.merge, h1, h2, h3]

/-- Pages with the same favorite flag compare by `sort_order`. -/
theorem pageLE_same_fav (x y : Page) (hf : x.is_favorite = y.is_favorite)
    (hs : x.sort_order < y.sort_order) : pageLE x y = true := by
  cases hy : y.is_favorite <;> simp [pageLE, hf, hy, hs]

theorem blockLE_of_le (x y : Block) (hs : x.sort_order ≤ y.sort_order) :
    blockLE x y = true := by
  simp [blockLE, hs]

theorem itemLE_of_lt (x y : DbItem) (hs : x.sort_order < y.sort_order) :
    itemLE x y = true := by
  simp [itemLE, hs]

/-- C7: calling reorder with the full ordered sibling set `[a, b, c]`
assigns `sort_order` 0, 1, 2 in that order, and a subsequent listing of the
scope returns the siblings in that order — pages through `list_pages`
subject to the favorite-descending first key (decisive here because the
siblings share one favorite flag, with `updated_at` recency never reached
on distinct sort keys), blocks through `get_blocks`, items through
`get_database`. -/
theorem reorder_then_list_in_order
    (sp : DB) (w : String) (pa pb pc : Page)
    (hsp : sp.pages = [pa, pb, pc])
    (hab : pa.id ≠ pb.id) (hac : pa.id ≠ pc.id) (hbc : pb.id ≠ pc.id)
    (hwa : pa.workspace = w) (hwb : pb.workspace = w) (hwc : pc.workspace = w)
    (hw : w ≠ "")
    (hfab : pa.is_favorite = pb.is_favorite) (hfbc : pb.is_favorite = pc.is_favorite)
    (sb : DB) (tb : Nat) (pid : String) (ba bb bc : Block)
    (hsb : sb.blocks = [ba, bb, bc])
    (hb1 : ba.id ≠ bb.id) (hb2 : ba.id ≠ bc.id) (hb3 : bb.id ≠ bc.id)
    (hba : ba.page_id = pid) (hbb : bb.page_id = pid) (hbcp : bc.page_id = pid)
    (si : DB) (did : String) (ia ib ic : DbItem) (dbrow : Database)
    (hsi : si.db_items = [ia, ib, ic])
    (hi1 : ia.id ≠ ib.id) (hi2 : ia.id ≠ ic.id) (hi3 : ib.id ≠ ic.id)
    (hda : ia.database_id = did) (hdb : ib.database_id = did) (hdc : ic.database_id = did)
    (hdrow : si.databases.find? (fun r => r.id = did) = some dbrow) :
    ((reorder_pages sp [pa.id, pb.id, pc.id]).1.pages
        = [{ pa with sort_order := 0 }, { pb with sort_order := 1 }, { pc with sort_order := 2 }]
      ∧ (list_pages (reorder_pages sp [pa.id, pb.id, pc.id]).1 (some w)).map Page.id
        = [pa.id, pb.id, pc.id])
    ∧ ((reorder_blocks sb tb pid [ba.id, bb.id, bc.id]).1.blocks
        = [{ ba with sort_order := 0 }, { bb with sort_order := 1 }, { bc with sort_order := 2 }]
      ∧ (get_blocks (reorder_blocks sb tb pid [ba.id, bb.id, bc.id]).1 pid).map Block.id
        = [ba.id, bb.id, bc.id])
    ∧ ((reorder_db_items si [ia.id, ib.id, ic.id]).1.db_items
        = [{ ia with sort_order := 0 }, { ib with sort_order := 1 }, { ic with sort_order := 2 }]
      ∧ ∃ vs, get_database (reorder_db_items si [ia.id, ib.id, ic.id]).1 did
          = .ok (dbrow, [{ ia with sort_order := 0 }, { ib with sort_order := 1 },
                         { ic with sort_order := 2 }], vs)) := by
  have hpag : (reorder_pages sp [pa.id, pb.id, pc.id]).1.pages
      = [{ pa with sort_order := 0 }, { pb with sort_order := 1 }, { pc with sort_order := 2 }] := by
    simp [reorder_pages, List.enum, List.enumFrom, hsp,
      hab, hac, hbc, hab.symm, hac.symm, hbc.symm]
  have hblk : (reorder_blocks sb tb pid [ba.id, bb.id, bc.id]).1.blocks
      = [{ ba with sort_order := 0 }, { bb with sort_order := 1 }, { bc with sort_order := 2 }] := by
    simp [reorder_blocks, stampPage, List.enum, List.enumFrom, hsb,
      hb1, hb2, hb3, hb1.symm, hb2.symm, hb3.symm, hba, hbb, hbcp]
  have hitm : (reorder_db_items si [ia.id, ib.id, ic.id]).1.db_items
      = [{ ia with sort_order := 0 }, { ib with sort_order := 1 }, { ic with sort_order := 2 }] := by
    simp [reorder_db_items, List.enum, List.enumFrom, hsi,
      hi1, hi2, hi3, hi1.symm, hi2.symm, hi3.symm]
  refine ⟨⟨hpag, ?_⟩, ⟨hblk, ?_⟩, ⟨hitm, ?_⟩⟩
  · simp only [list_pages]
    rw [if_pos hw, hpag]
    have hf1 : ({ pa with sort_order := 0 } : Page).is_favorite
        = ({ pb with sort_order := 1 } : Page).is_favorite := hfab
    have hf2 : ({ pb with sort_order := 1 } : Page).is_favorite
        = ({ pc with sort_order := 2 } : Page).is_favorite := hfbc
    have hms := mergeSort_three pageLE
      { pa with sort_order := 0 } { pb with sort_order := 1 } { pc with sort_order := 2 }
      (pageLE_same_fav _ _ hf1 (by norm_num))
      (pageLE_same_fav _ _ hf2 (by norm_num))
      (pageLE_same_fav _ _ (hf1.trans hf2) (by norm_num))
    have hfil : List.filter (fun p => p.workspace = w)
        [{ pa with sort_order := 0 }, { pb with sort_order := 1 }, { pc with sort_order := 2 }]
        = [{ pa with sort_order := 0 }, { pb with sort_order := 1 }, { pc with sort_order := 2 }] := by
      simp [List.filter, hwa, hwb, hwc]
    rw [hfil, hms]
    simp
  · simp only [get_blocks]
    rw [hblk]
    have hms := mergeSort_three blockLE
      { ba with sort_order := 0 } { bb with sort_order := 1 } { bc with sort_order := 2 }
      (blockLE_of_le _ _ (by norm_num))
      (blockLE_of_le _ _ (by norm_num))
      (blockLE_of_le _ _ (by norm_num))
    have hfil : List.filter (fun b => b.page_id = pid)
        [{ ba with sort_order := 0 }, { bb with sort_order := 1 }, { bc with sort_order := 2 }]
        = [{ ba with sort_order := 0 }, { bb with sort_order := 1 }, { bc with sort_order := 2 }] := by
      simp [List.filter, hba, hbb, hbcp]
    rw [hfil, hms]
    simp
  · have hdbs : (reorder_db_items si [ia.id, ib.id, ic.id]).1.databases = si.databases := by
      simp [reorder_db_items, List.enum, List.enumFrom]
    have hvws : (reorder_db_items si [ia.id, ib.id, ic.id]).1.db_views = si.db_views := by
      simp [reorder_db_items, List.enum, List.enumFrom]
    refine ⟨(si.db_views.filter (fun v => v.database_id = did)).mergeSort viewLE, ?_⟩
    simp only [get_database, hdbs, hdrow, hitm, hvws]
    have hms := mergeSort_three itemLE
      { ia with sort_order := 0 } { ib with sort_order := 1 } { ic with sort_order := 2 }
      (itemLE_of_lt _ _ (by norm_num))
      (itemLE_of_lt _ _ (by norm_num))
      (itemLE_of_lt _ _ (by norm_num))
    have hfil : List.filter (fun i => i.database_id = did)
        [{ ia with sort_order := 0 }, { ib with sort_order := 1 }, { ic with sort_order := 2 }]
        = [{ ia with sort_order := 0 }, { ib with sort_order := 1 }, { ic with sort_order := 2 }] := by
      simp [List.filter, hda, hdb, hdc]
    rw [hfil, hms]

def c7PState : DB :=
  { pages := [{ id := "a", workspace := "docs", sort_order := 5 },
              { id := "b", workspace := "docs", sort_order := 4 },
              { id := "c", workspace := "docs", sort_order := 3 }] }

def c7BState : DB :=
  { blocks := [{ id := "x", page_id := "pp", sort_order := 2 },
               { id := "y", page_id := "pp", sort_order := 1 },
               { id := "z", page_id := "pp", sort_order := 0 }] }

def c7IState : DB :=
  { databases := [{ id := "dd" }],
    db_items := [{ id := "m", database_id := "dd", sort_order := 9 },
                 { id := "n", database_id := "dd", sort_order := 8 },
                 { id := "o", database_id := "dd", sort_order := 7 }] }

/-- Witness for C7 on concrete three-element scopes. -/
theorem reorder_then_list_in_order_witness :
    ((reorder_pages c7PState ["a", "b", "c"]).1.pages
        = [{ id := "a", workspace := "docs", sort_order := 0 },
           { id := "b", workspace := "docs", sort_order := 1 },
           { id := "c", workspace := "docs", sort_order := 2 }]
      ∧ (list_pages (reorder_pages c7PState ["a", "b", "c"]).1 (some "docs")).map Page.id
        = ["a", "b", "c"])
    ∧ ((reorder_blocks c7BState 6 "pp" ["x", "y", "z"]).1.blocks
        = [{ id := "x", page_id := "pp", sort_order := 0 },
           { id := "y", page_id := "pp", sort_order := 1 },
           { id := "z", page_id := "pp", sort_order := 2 }]
      ∧ (get_blocks (reorder_blocks c7BState 6 "pp" ["x", "y", "z"]).1 "pp").map Block.id
        = ["x", "y", "z"])
    ∧ ((reorder_db_items c7IState ["m", "n", "o"]).1.db_items
        = [{ id := "m", database_id := "dd", sort_order := 0 },
           { id := "n", database_id := "dd", sort_order := 1 },
           { id := "o", database_id := "dd", sort_order := 2 }]
      ∧ ∃ vs, get_database (reorder_db_items c7IState ["m", "n", "o"]).1 "dd"
          = .ok ({ id := "dd" }, [{ id := "m", database_id := "dd", sort_order := 0 },
                                  { id := "n", database_id := "dd", sort_order := 1 },
                                  { id := "o", database_id := "dd", sort_order := 2 }], vs)) :=
  reorder_then_list_in_order c7PState "docs"
    { id := "a", workspace := "docs", sort_order := 5 }
    { id := "b", workspace := "docs", sort_order := 4 }
    { id := "c", workspace := "docs", sort_order := 3 }
    rfl (by decide) (by decide) (by decide) rfl rfl rfl (by decide) rfl rfl
    c7BState 6 "pp"
    { id := "x", page_id := "pp", sort_order := 2 }
    { id := "y", page_id := "pp", sort_order := 1 }
    { id := "z", page_id := "pp", sort_order := 0 }
    rfl (by decide) (by decide) (by decide) rfl rfl rfl
    c7IState "dd"
    { id := "m", database_id := "dd", sort_order := 9 }
    { id := "n", database_id := "dd", sort_order := 8 }
    { id := "o", database_id := "dd", sort_order := 7 }
    { id := "dd" }
    rfl (by decide) (by decide) (by decide) rfl rfl rfl (by decide)

/-! ## C8 — page creation: sibling max and default block -/

def c8State : DB :=
  { pages := [{ id := "", workspace := "docs", sort_order := 0 },
              { id := "b", parent_id := some "", workspace := "docs", sort_order := 7 }] }

/-- C8 counterexample: a call that supplies the empty string as `parent_id`
(a page with the empty id exists, so the stored reference is valid) creates
the page with `parent_id = ""` but computes the sibling maximum over root
pages of the workspace (`if parent_id:` is falsy, src/app.py:149): the new
page gets `sort_order = 1` although the maximum among the pages sharing its
`parent_id` is 7, so the claim's `max(sibling)+1 = 8` fails. -/
theorem createPage_empty_parent_breaks_sibling_max :
    (create_page c8State 1 "n" "g" { parent_id := some "", workspace := "docs" }).2
      = .ok { id := "n", title := "Untitled", icon := "", cover := "", parent_id := some "",
              workspace := "docs", sort_order := 1, is_favorite := false,
              created_at := 1, updated_at := 1 }
    ∧ maxSortD ((c8State.pages.filter
        (fun p => p.parent_id = some "")).map (·.sort_order)) + 1 = 8
    ∧ (1 : Int) ≠ 8 := by
  refine ⟨?_, ?_, ?_⟩ <;> decide

/-- C8 (amended): a successful page create assigns `sort_order` one greater
than the maximum `sort_order` among pages sharing the supplied parent_id
when that parent_id is non-empty, and among root pages sharing the same
workspace when the parent_id is absent or empty (an empty-string parent_id
is stored verbatim while its sibling scan falls back to the root scope);
exactly one empty default text block is created for the new page, which
therefore has at least one block. -/
theorem createPage_sort_and_default_block
    (s : DB) (t : Nat) (gp gb : String) (d : CreatePageInput) (np : Page)
    (hok : (create_page s t gp gb d).2 = .ok np) :
    np.sort_order =
      (match d.parent_id with
       | some par =>
          if par ≠ "" then
            maxSortD ((s.pages.filter (fun q => q.parent_id = some par)).map (·.sort_order))
          else
            maxSortD ((s.pages.filter
              (fun q => q.parent_id = none ∧ q.workspace = d.workspace)).map (·.sort_order))
       | none =>
          maxSortD ((s.pages.filter
            (fun q => q.parent_id = none ∧ q.workspace = d.workspace)).map (·.sort_order))) + 1
    ∧ np.parent_id = d.parent_id
    ∧ ((create_page s t gp gb d).1.blocks.filter (fun b => b.page_id = np.id)).length
        = (s.blocks.filter (fun b => b.page_id = np.id)).length + 1
    ∧ { id := gb, page_id := np.id, type := "text", content := "",
        properties := [], sort_order := 0, indent_level := 0, created_at := t }
        ∈ (create_page s t gp gb d).1.blocks
    ∧ 1 ≤ ((create_page s t gp gb d).1.blocks.filter (fun b => b.page_id = np.id)).length := by
  simp only [create_page] at hok ⊢
  split at hok
  · simp at hok
  · rename_i hcond
    rw [if_neg hcond]
    simp only at hok
    have hnp := Outcome.ok.inj hok
    subst hnp
    refine ⟨?_, rfl, ?_, ?_, ?_⟩
    · cases hp : d.parent_id with
      | none => simp [truthy]
      | some par =>
          by_cases hpe : par = ""
          · subst hpe
            simp [truthy]
          · simp [truthy, hpe, hp]
    · simp [List.filter_append]
    · apply List.mem_append_right
      simp
    · simp [List.filter_append]

def c8In : CreatePageInput := {}

def c8NewPage : Page :=
  { id := "p0", sort_order := 1, created_at := 2, updated_at := 2 }

/-- Witness for the amended C8 on the empty store. -/
theorem createPage_sort_and_default_block_witness :
    c8NewPage.sort_order =
      (match c8In.parent_id with
       | some par =>
          if par ≠ "" then
            maxSortD ((emptyStore.pages.filter (fun q => q.parent_id = some par)).map (·.sort_order))
          else
            maxSortD ((emptyStore.pages.filter
              (fun q => q.parent_id = none ∧ q.workspace = c8In.workspace)).map (·.sort_order))
       | none =>
          maxSortD ((emptyStore.pages.filter
            (fun q => q.parent_id = none ∧ q.workspace = c8In.workspace)).map (·.sort_order))) + 1
    ∧ c8NewPage.parent_id = c8In.parent_id
    ∧ ((create_page emptyStore 2 "p0" "b0" c8In).1.blocks.filter
        (fun b => b.page_id = c8NewPage.id)).length
        = (emptyStore.blocks.filter (fun b => b.page_id = c8NewPage.id)).length + 1
    ∧ { id := "b0", page_id := c8NewPage.id, type := "text", content := "",
        properties := [], sort_order := 0, indent_level := 0, created_at := 2 }
        ∈ (create_page emptyStore 2 "p0" "b0" c8In).1.blocks
    ∧ 1 ≤ ((create_page emptyStore 2 "p0" "b0" c8In).1.blocks.filter
        (fun b => b.page_id = c8NewPage.id)).length :=
  createPage_sort_and_default_block emptyStore 2 "p0" "b0" c8In c8NewPage (by decide)

/-! ## C1 — page delete removes the whole subtree

The parent graph of a store is captured by `Chain`; `delete_page` walks it
recursively (src/app.py:212-228).  The claim is proved for well-formed
stores: page ids are unique (the `pages` primary key) and the parent edges
are acyclic (the tree shape the schema intends; on a cyclic store the
Python recursion would not terminate at all). -/

/-- One parent edge: some page row has id `qid` and parent `r`. -/
def HasEdge (s : DB) (qid r : String) : Prop :=
  ∃ p ∈ s.pages, p.id = qid ∧ p.parent_id = some r

/-- Relation `Chain s a q l`: page id `q` is reached from `a` by following child
edges; `l` lists the ids stepped through, endpoint first, `a` excluded. -/
inductive Chain (s : DB) (a : String) : String → List String → Prop
  | nil : Chain s a a []
  | cons {r qid l} : Chain s a r l → HasEdge s qid r → Chain s a qid (qid :: l)

/-- Page `q` is `a` or one of its transitive descendants. -/
def Desc (s : DB) (a q : String) : Prop := ∃ l, Chain s a q l

/-- No page is reachable from itself through a non-empty chain. -/
def Acyclic (s : DB) : Prop := ∀ a l, Chain s a a l → l = []

/-- Page ids are unique (primary key of `pages`). -/
def NodupIds (s : DB) : Prop := (s.pages.map (·.id)).Nodup

/-- Every edge of `s2` is an edge of `s1`; deletions only lose edges. -/
def EdgeLE (s2 s1 : DB) : Prop := ∀ qid r, HasEdge s2 qid r → HasEdge s1 qid r

/-- No page row with this id remains. -/
def pageAbsent (s : DB) (q : String) : Prop := ∀ p ∈ s.pages, p.id ≠ q

/-- No block row owned by this page id remains. -/
def blocksAbsent (s : DB) (q : String) : Prop := ∀ b ∈ s.blocks, b.page_id ≠ q

theorem edge_le_refl (s : DB) : EdgeLE s s := fun _ _ h => h

theorem edge_le_trans {s3 s2 s1 : DB} (h32 : EdgeLE s3 s2) (h21 : EdgeLE s2 s1) :
    EdgeLE s3 s1 := fun qid r h => h21 qid r (h32 qid r h)

theorem chain_mono {s2 s1 : DB} {a q : String} {l : List String}
    (hle : EdgeLE s2 s1) (h : Chain s2 a q l) : Chain s1 a q l := by
  induction h with
  | nil => exact Chain.nil
  | cons hch hedge ih => exact Chain.cons ih (hle _ _ hedge)

theorem acyclic_of_edge_le {s2 s1 : DB} (hle : EdgeLE s2 s1) (h : Acyclic s1) :
    Acyclic s2 := fun a l hch => h a l (chain_mono hle hch)

theorem sqlDeletePage_edge_le (s : DB) (x : String) : EdgeLE (sqlDeletePage s x) s := by
  intro qid r h
  obtain ⟨p, hp, hid, hpar⟩ := h
  simp only [sqlDeletePage, List.mem_map] at hp
  obtain ⟨p0, hp0, hpe⟩ := hp
  have hp0s : p0 ∈ s.pages := List.mem_of_mem_filter hp0
  by_cases hc : p0.parent_id = some x
  · rw [← hpe] at hid hpar
    simp [hc] at hid hpar
  · rw [← hpe] at hid hpar
    simp [hc] at hid hpar
    exact ⟨p0, hp0s, hid, hpar⟩

theorem deleteBlocksOfPage_edge_le (s : DB) (x : String) :
    EdgeLE (deleteBlocksOfPage s x) s := by
  intro qid r h
  exact h

/-- A fold over sub-operations preserves any invariant each step preserves. -/
theorem foldl_preserve {α : Type} (P : DB → Prop) (g : DB → α → DB) :
    ∀ (l : List α) (s : DB), P s → (∀ st a, a ∈ l → P st → P (g st a)) →
      P (l.foldl g s) := by
  intro l
  induction l with
  | nil => exact fun s h _ => h
  | cons a tl ih =>
      intro s h hstep
      exact ih _ (hstep s a (List.mem_cons_self a tl) h)
        (fun st b hb => hstep st b (List.mem_cons_of_mem a hb))

theorem dpr_edge_le : ∀ (f : Nat) (s : DB) (x : String),
    EdgeLE (delete_page_recursive f s x) s := by
  intro f
  induction f with
  | zero => exact fun s x => edge_le_refl s
  | succ f ih =>
      intro s x
      simp only [delete_page_recursive]
      refine edge_le_trans (edge_le_trans (sqlDeletePage_edge_le _ _)
        (deleteBlocksOfPage_edge_le _ _)) ?_
      exact foldl_preserve (fun st => EdgeLE st s) _ _ s (edge_le_refl s)
        (fun st (a : Page) _ hst => edge_le_trans (ih st a.id) hst)

theorem pageAbsent_sqlDeletePage {s : DB} {q : String} (x : String)
    (h : pageAbsent s q) : pageAbsent (sqlDeletePage s x) q := by
  intro p hp
  simp only [sqlDeletePage, List.mem_map] at hp
  obtain ⟨p0, hp0, hpe⟩ := hp
  have hp0s : p0 ∈ s.pages := List.mem_of_mem_filter hp0
  have := h p0 hp0s
  rw [← hpe]
  by_cases hc : p0.parent_id = some x <;> simp [hc, this]

theorem blocksAbsent_sqlDeletePage {s : DB} {q : String} (x : String)
    (h : blocksAbsent s q) : blocksAbsent (sqlDeletePage s x) q := by
  intro b hb
  exact h b (List.mem_of_mem_filter hb)

theorem pageAbsent_deleteBlocks {s : DB} {q : String} (x : String)
    (h : pageAbsent s q) : pageAbsent (deleteBlocksOfPage s x) q := h

theorem blocksAbsent_deleteBlocks {s : DB} {q : String} (x : String)
    (h : blocksAbsent s q) : blocksAbsent (deleteBlocksOfPage s x) q := by
  intro b hb
  exact h b (List.mem_of_mem_filter hb)

theorem dead_dpr : ∀ (f : Nat) (s : DB) (x q : String),
    pageAbsent s q → blocksAbsent s q →
    pageAbsent (delete_page_recursive f s x) q
      ∧ blocksAbsent (delete_page_recursive f s x) q := by
  intro f
  induction f with
  | zero => exact fun s x q hp hb => ⟨hp, hb⟩
  | succ f ih =>
      intro s x q hp hb
      simp only [delete_page_recursive]
      have hfold := foldl_preserve (fun st => pageAbsent st q ∧ blocksAbsent st q)
        (fun st c => delete_page_recursive f st c.id)
        (s.pages.filter (fun p => p.parent_id = some x)) s ⟨hp, hb⟩
        (fun st (a : Page) _ hst => ih st a.id q hst.1 hst.2)
      exact ⟨pageAbsent_sqlDeletePage _ (pageAbsent_deleteBlocks _ hfold.1),
        blocksAbsent_sqlDeletePage _ (blocksAbsent_deleteBlocks _ hfold.2)⟩

/-- One unrolling of the recursion always removes the root page's row and
its blocks. -/
theorem dpr_kills_root (f : Nat) (s : DB) (x : String) :
    pageAbsent (delete_page_recursive (f + 1) s x) x
      ∧ blocksAbsent (delete_page_recursive (f + 1) s x) x := by
  simp only [delete_page_recursive]
  constructor
  · intro p hp
    simp only [sqlDeletePage, List.mem_map] at hp
    obtain ⟨p0, hp0, hpe⟩ := hp
    have := List.of_mem_filter hp0
    rw [← hpe]
    by_cases hc : p0.parent_id = some x <;> simp [hc] <;> simpa using this
  · intro b hb
    simp only [sqlDeletePage] at hb
    have := List.of_mem_filter hb
    simpa using this

theorem chain_append {s : DB} {a b c : String} {l1 l2 : List String}
    (h1 : Chain s a b l1) (h2 : Chain s b c l2) : Chain s a c (l2 ++ l1) := by
  induction h2 with
  | nil => exact h1
  | cons hch hedge ih => exact Chain.cons ih hedge

/-- A non-trivial chain starts with a child of its start node. -/
theorem chain_snoc {s : DB} {a q : String} {l : List String}
    (h : Chain s a q l) (hne : l ≠ []) :
    ∃ c l2, HasEdge s c a ∧ Chain s c q l2 ∧ l = l2 ++ [c] := by
  revert hne
  induction h with
  | nil => intro hne; exact absurd rfl hne
  | @cons r qid l' hch hedge ih =>
      intro _
      by_cases hl : l' = []
      · subst hl
        cases hch
        exact ⟨qid, [], hedge, Chain.nil, rfl⟩
      · obtain ⟨c, l2, he, hc2, hleq⟩ := ih hl
        exact ⟨c, qid :: l2, he, Chain.cons hc2 hedge, by rw [hleq]; rfl⟩

/-- A chain splits at any listed node. -/
theorem chain_split {s : DB} {a y : String} {l2 : List String} :
    ∀ (l1 : List String) {q : String}, Chain s a q (l1 ++ y :: l2) →
      Chain s a y (y :: l2) ∧ Chain s y q l1 := by
  intro l1
  induction l1 with
  | nil =>
      intro q h
      cases h with
      | cons hch hedge => exact ⟨Chain.cons hch hedge, Chain.nil⟩
  | cons e l1' ih =>
      intro q h
      cases h with
      | cons hch hedge =>
          obtain ⟨hy, hyr⟩ := ih hch
          exact ⟨hy, Chain.cons hyr hedge⟩

theorem chain_nodes {s : DB} {a q : String} {l : List String}
    (h : Chain s a q l) : ∀ x ∈ l, x ∈ s.pages.map (·.id) := by
  induction h with
  | nil => intro x hx; simp at hx
  | cons hch hedge ih =>
      intro x hx
      rcases List.mem_cons.mp hx with hx | hx
      · obtain ⟨p, hp, hid, -⟩ := hedge
        subst hx
        exact List.mem_map.mpr ⟨p, hp, hid⟩
      · exact ih x hx

theorem exists_dup_split {α : Type} : ∀ (l : List α), ¬ l.Nodup →
    ∃ y l1 l2 l3, l = l1 ++ y :: l2 ++ y :: l3 := by
  intro l
  induction l with
  | nil => intro h; exact absurd List.nodup_nil h
  | cons a tl ih =>
      intro h
      by_cases ha : a ∈ tl
      · obtain ⟨l2, l3, heq⟩ := List.append_of_mem ha
        exact ⟨a, [], l2, l3, by simp [heq]⟩
      · have htl : ¬ tl.Nodup := by
          intro hn
          exact h (List.nodup_cons.mpr ⟨ha, hn⟩)
        obtain ⟨y, l1, l2, l3, hT⟩ := ih htl
        exact ⟨y, a :: l1, l2, l3, by simp [hT]⟩

/-- In an acyclic store no chain revisits a node. -/
theorem chain_nodup {s : DB} (hacyc : Acyclic s) {a q : String} {l : List String}
    (h : Chain s a q l) : l.Nodup := by
  by_contra hdup
  obtain ⟨y, l1, l2, l3, hl⟩ := exists_dup_split l hdup
  subst hl
  have h' : Chain s a q (l1 ++ y :: (l2 ++ y :: l3)) := by simpa using h
  have h1 := (chain_split l1 h').1
  cases h1 with
  | cons hch hedge =>
      obtain ⟨-, hyr⟩ := chain_split l2 hch
      have hcyc := Chain.cons hyr hedge
      have := hacyc y _ hcyc
      simp at this

/-- In an acyclic store chains are no longer than the page table. -/
theorem chain_length_le {s : DB} (hacyc : Acyclic s) {a q : String} {l : List String}
    (h : Chain s a q l) : l.length ≤ s.pages.length := by
  have hnd := chain_nodup hacyc h
  have hsub : l ⊆ s.pages.map (·.id) := fun x hx => chain_nodes h x hx
  have := (List.subperm_of_subset hnd hsub).length_le
  simpa using this

/-- With unique ids there is one row per page id. -/
theorem row_unique {s : DB} (hnd : NodupIds s) {p1 p2 : Page}
    (h1 : p1 ∈ s.pages) (h2 : p2 ∈ s.pages) (hid : p1.id = p2.id) : p1 = p2 :=
  List.inj_on_of_nodup_map hnd h1 h2 hid

/-- With unique ids the parent function is deterministic, so two chains
into the same node agree up to the shorter one, and the longer one passes
through the shorter one's start. -/
theorem chain_unique {s : DB} (hnd : NodupIds s) :
    ∀ (m1 : List String) (y u : String), Chain s u y m1 →
    ∀ (m2 : List String) (v : String), Chain s v y m2 →
    m1.length ≤ m2.length → ∃ m3, m2 = m1 ++ m3 ∧ Chain s v u m3 := by
  intro m1
  induction m1 with
  | nil =>
      intro y u h1 m2 v h2 _
      cases h1
      exact ⟨m2, rfl, h2⟩
  | cons e m1' ih =>
      intro y u h1 m2 v h2 hlen
      cases h1 with
      | cons hch1 hedge1 =>
          cases h2 with
          | nil => simp at hlen
          | @cons r2 cq2 m2' hch2 hedge2 =>
              rename_i r1
              obtain ⟨p1, hp1, hid1, hpar1⟩ := hedge1
              obtain ⟨p2, hp2, hid2, hpar2⟩ := hedge2
              have hpp : p1 = p2 := row_unique hnd hp1 hp2 (hid1.trans hid2.symm)
              have hr : r1 = r2 := by
                rw [hpp] at hpar1
                rw [hpar1] at hpar2
                exact Option.some.inj hpar2
              subst hr
              obtain ⟨m3, hm2, hm3⟩ := ih r1 u hch1 m2' v hch2 (by simpa using hlen)
              exact ⟨m3, by rw [hm2]; rfl, hm3⟩

/-- Subtrees hanging off two distinct children of the same parent cannot
meet in an acyclic store with unique ids. -/
theorem sibling_subtrees_disjoint {s : DB} (hnd : NodupIds s) (hacyc : Acyclic s)
    {pid c : String} {a : Page} (hc : HasEdge s c pid)
    (ha : a ∈ s.pages) (hap : a.parent_id = some pid) (hane : a.id ≠ c)
    {y : String} (hcy : ∃ m, Chain s c y m) (hay : ∃ m, Chain s a.id y m) : False := by
  obtain ⟨m1, hm1⟩ := hcy
  obtain ⟨m2, hm2⟩ := hay
  rcases le_total m1.length m2.length with hle | hle
  · obtain ⟨m3, -, hm3⟩ := chain_unique hnd m1 y c hm1 m2 a.id hm2 hle
    cases hm3 with
    | nil => exact hane rfl
    | @cons r cq m' hch hedge =>
        obtain ⟨p1, hp1, hid1, hpar1⟩ := hedge
        obtain ⟨p2, hp2, hid2, hpar2⟩ := hc
        have hpp : p1 = p2 := row_unique hnd hp1 hp2 (hid1.trans hid2.symm)
        have hr : r = pid := by
          rw [hpp] at hpar1
          rw [hpar1] at hpar2
          exact Option.some.inj hpar2
        subst hr
        have hstep : Chain s r a.id [a.id] := Chain.cons Chain.nil ⟨a, ha, rfl, hap⟩
        have hcyc := chain_append hstep hch
        have := hacyc r _ hcyc
        simp at this
  · obtain ⟨m3, -, hm3⟩ := chain_unique hnd m2 y a.id hm2 m1 c hm1 hle
    cases hm3 with
    | nil => exact hane rfl
    | @cons r cq m' hch hedge =>
        obtain ⟨p1, hp1, hid1, hpar1⟩ := hedge
        have hpp : p1 = a := row_unique hnd hp1 ha hid1
        have hr : r = pid := by
          rw [hpp] at hpar1
          rw [hpar1] at hap
          exact Option.some.inj hap
        subst hr
        have hstep : Chain s r c [c] := Chain.cons Chain.nil hc
        have hcyc := chain_append hstep hch
        have := hacyc r _ hcyc
        simp at this

theorem nodup_sqlDeletePage {s : DB} (x : String) (h : NodupIds s) :
    NodupIds (sqlDeletePage s x) := by
  unfold NodupIds at *
  simp only [sqlDeletePage]
  have hmap : ((s.pages.filter (fun p => p.id ≠ x)).map
      (fun p => if p.parent_id = some x then { p with parent_id := none } else p)).map (·.id)
      = (s.pages.filter (fun p => p.id ≠ x)).map (·.id) := by
    rw [List.map_map]
    apply List.map_congr_left
    intro p _
    by_cases hc : p.parent_id = some x <;> simp [hc]
  rw [hmap]
  exact ((List.filter_sublist s.pages).map _).nodup h

theorem nodup_dpr : ∀ (f : Nat) (s : DB) (x : String), NodupIds s →
    NodupIds (delete_page_recursive f s x) := by
  intro f
  induction f with
  | zero => exact fun s x h => h
  | succ f ih =>
      intro s x h
      simp only [delete_page_recursive]
      apply nodup_sqlDeletePage
      have hfold := foldl_preserve (fun st => NodupIds st)
        (fun st c => delete_page_recursive f st c.id)
        (s.pages.filter (fun p => p.parent_id = some x)) s h
        (fun st (a : Page) _ hst => ih st a.id hst)
      exact hfold

/-- A chain survives into a later store when all edges at its nodes do. -/
theorem chain_transfer {s s2 : DB} {a q : String} {l : List String}
    (h : Chain s a q l) (hkeep : ∀ y r, y ∈ l → HasEdge s y r → HasEdge s2 y r) :
    Chain s2 a q l := by
  induction h with
  | nil => exact Chain.nil
  | @cons r qid l' hch hedge ih =>
      refine Chain.cons (ih (fun y r2 hy he => hkeep y r2 (List.mem_cons_of_mem _ hy) he)) ?_
      exact hkeep _ _ (List.mem_cons_self _ _) hedge

/-- The recursive delete never touches a page row that is not a descendant
of the deleted root: the row survives unchanged. -/
theorem dpr_preserves_row : ∀ (f : Nat) (s : DB) (x : String) (p : Page),
    p ∈ s.pages → ¬ Desc s x p.id → p ∈ (delete_page_recursive f s x).pages := by
  intro f
  induction f with
  | zero => exact fun s x p hp _ => hp
  | succ f ih =>
      intro s x p hp hndesc
      simp only [delete_page_recursive]
      have hstep : ∀ (st : DB) (a : Page),
          a ∈ s.pages.filter (fun q => q.parent_id = some x) →
          (p ∈ st.pages ∧ EdgeLE st s) →
          (p ∈ (delete_page_recursive f st a.id).pages
            ∧ EdgeLE (delete_page_recursive f st a.id) s) := by
        intro st a hmem hst
        have has : a ∈ s.pages := List.mem_of_mem_filter hmem
        have hapar : a.parent_id = some x := by simpa using List.of_mem_filter hmem
        refine ⟨?_, edge_le_trans (dpr_edge_le f st a.id) hst.2⟩
        apply ih st a.id p hst.1
        rintro ⟨m, hm⟩
        have hms := chain_mono hst.2 hm
        have hstep0 : Chain s x a.id [a.id] := Chain.cons Chain.nil ⟨a, has, rfl, hapar⟩
        exact hndesc ⟨m ++ [a.id], chain_append hstep0 hms⟩
      have hfold := foldl_preserve (fun st => p ∈ st.pages ∧ EdgeLE st s)
        (fun st c => delete_page_recursive f st c.id)
        (s.pages.filter (fun q => q.parent_id = some x)) s ⟨hp, edge_le_refl s⟩ hstep
      obtain ⟨hp1, hle1⟩ := hfold
      have hpx : p.id ≠ x := by
        intro he
        exact hndesc ⟨[], by rw [he]; exact Chain.nil⟩
      have hppar : p.parent_id ≠ some x := by
        intro hpe
        exact hndesc ⟨[p.id], Chain.cons Chain.nil ⟨p, hp, rfl, hpe⟩⟩
      simp only [sqlDeletePage, deleteBlocksOfPage, List.mem_map]
      exact ⟨p, List.mem_filter.mpr ⟨hp1, by simpa using hpx⟩, by simp [hppar]⟩

/-- Main induction: with enough fuel the recursive delete removes every
node reachable from the root, together with all its blocks. -/
theorem dpr_removes_chain : ∀ (f : Nat) (s : DB) (pid q : String) (l : List String),
    Chain s pid q l → l.length < f → NodupIds s → Acyclic s →
    pageAbsent (delete_page_recursive f s pid) q
      ∧ blocksAbsent (delete_page_recursive f s pid) q := by
  intro f
  induction f with
  | zero =>
      intro s pid q l _ hl _ _
      exact absurd hl (Nat.not_lt_zero _)
  | succ f ih =>
      intro s pid q l hch hl hnd hacyc
      cases l with
      | nil =>
          cases hch
          exact dpr_kills_root f s pid
      | cons e l' =>
          obtain ⟨c, l2, hce, hc2, hleq⟩ := chain_snoc hch (by simp)
          obtain ⟨pc, hpc, hpcid, hpcpar⟩ := hce
          have hlen2 : l2.length < f := by
            have heq : (e :: l').length = l2.length + 1 := by rw [hleq]; simp
            simp only [List.length_cons] at heq hl
            omega
          have hpcmem : pc ∈ s.pages.filter (fun p => p.parent_id = some pid) :=
            List.mem_filter.mpr ⟨hpc, by simp [hpcpar]⟩
          obtain ⟨A, B, hchil⟩ := List.append_of_mem hpcmem
          have hchnodup : ((s.pages.filter
              (fun p => p.parent_id = some pid)).map (·.id)).Nodup :=
            ((List.filter_sublist _).map _).nodup hnd
          have hAne : ∀ a ∈ A, a.id ≠ c := by
            intro a haA hac
            rw [hchil, List.map_append, List.map_cons] at hchnodup
            have hdisj := List.disjoint_of_nodup_append hchnodup
            refine hdisj (List.mem_map.mpr ⟨a, haA, rfl⟩) ?_
            rw [hac, ← hpcid]
            exact List.mem_cons_self _ _
          have hstepA : ∀ (st : DB) (a : Page), a ∈ A →
              ((∀ y r, y ∈ l2 → HasEdge s y r → HasEdge st y r) ∧ EdgeLE st s) →
              ((∀ y r, y ∈ l2 → HasEdge s y r →
                  HasEdge (delete_page_recursive f st a.id) y r)
                ∧ EdgeLE (delete_page_recursive f st a.id) s) := by
            intro st a haA hst
            refine ⟨?_, edge_le_trans (dpr_edge_le f st a.id) hst.2⟩
            intro y r hy he
            obtain ⟨py, hpy, hpyid, hpypar⟩ := hst.1 y r hy he
            have hachil : a ∈ s.pages.filter (fun p => p.parent_id = some pid) := by
              rw [hchil]
              exact List.mem_append_left _ haA
            have haS : a ∈ s.pages := List.mem_of_mem_filter hachil
            have hapar : a.parent_id = some pid := by simpa using List.of_mem_filter hachil
            have hrow : py ∈ (delete_page_recursive f st a.id).pages := by
              apply dpr_preserves_row f st a.id py hpy
              rintro ⟨m, hm⟩
              have hms := chain_mono hst.2 hm
              obtain ⟨u, v, hl2⟩ := List.append_of_mem hy
              have hc2' : Chain s c q (u ++ y :: v) := by rw [← hl2]; exact hc2
              have hcy := (chain_split u hc2').1
              rw [hpyid] at hms
              exact sibling_subtrees_disjoint hnd hacyc ⟨pc, hpc, hpcid, hpcpar⟩
                haS hapar (hAne a haA) ⟨y :: v, hcy⟩ ⟨m, hms⟩
            exact ⟨py, hrow, hpyid, hpypar⟩
          have hfoldA := foldl_preserve
            (fun st => (∀ y r, y ∈ l2 → HasEdge s y r → HasEdge st y r) ∧ EdgeLE st s)
            (fun st c0 => delete_page_recursive f st c0.id) A s
            ⟨fun y r _ he => he, edge_le_refl s⟩ hstepA
          have hnodA : NodupIds (A.foldl
              (fun st c0 => delete_page_recursive f st c0.id) s) := by
            apply foldl_preserve (fun st => NodupIds st)
              (fun st c0 => delete_page_recursive f st c0.id) A s hnd
            exact fun st (a : Page) _ h => nodup_dpr f st a.id h
          have hacycA := acyclic_of_edge_le hfoldA.2 hacyc
          have hchain1 := chain_transfer hc2 (fun y r hy he => hfoldA.1 y r hy he)
          have hkill := ih _ c q l2 hchain1 hlen2 hnodA hacycA
          simp only [delete_page_recursive]
          rw [hchil, List.foldl_append, List.foldl_cons, hpcid]
          have hfoldB := foldl_preserve (fun st => pageAbsent st q ∧ blocksAbsent st q)
            (fun st c0 => delete_page_recursive f st c0.id) B
            (delete_page_recursive f
              (A.foldl (fun st c0 => delete_page_recursive f st c0.id) s) c)
            hkill (fun st (a : Page) _ h => dead_dpr f st a.id q h.1 h.2)
          exact ⟨pageAbsent_sqlDeletePage _ (pageAbsent_deleteBlocks _ hfoldB.1),
            blocksAbsent_sqlDeletePage _ (blocksAbsent_deleteBlocks _ hfoldB.2)⟩

/-- C1: deleting a page removes it, every page of its descendant subtree,
and every block owned by the page or any descendant: afterwards no page row
with such an id and no block row whose `page_id` is in the deleted set
remains.  Stated over well-formed stores: page ids unique (primary key) and
parent edges acyclic (on a cyclic store the Python recursion diverges). -/
theorem delete_page_removes_subtree (s : DB) (pid q : String)
    (hnd : NodupIds s) (hacyc : Acyclic s) (hdesc : Desc s pid q) :
    (∀ p ∈ (delete_page s pid).1.pages, p.id ≠ q)
    ∧ (∀ b ∈ (delete_page s pid).1.blocks, b.page_id ≠ q) := by
  obtain ⟨l, hch⟩ := hdesc
  have hlen : l.length < s.pages.length + 1 :=
    Nat.lt_succ_of_le (chain_length_le hacyc hch)
  exact dpr_removes_chain (s.pages.length + 1) s pid q l hch hlen hnd hacyc

def c1State : DB :=
  { pages := [{ id := "p" }, { id := "c", parent_id := some "p" }],
    blocks := [{ id := "bp", page_id := "p" }, { id := "bc", page_id := "c" }] }

/-- The only chains of the witness store: the empty one, and the single
edge from "p" to its child "c". -/
theorem c1State_chains : ∀ (a q : String) (l : List String), Chain c1State a q l →
    (l = [] ∧ a = q) ∨ (a = "p" ∧ q = "c" ∧ l = ["c"]) := by
  intro a q l h
  induction h with
  | nil => exact Or.inl ⟨rfl, rfl⟩
  | @cons r qid l' hch hedge ih =>
      obtain ⟨p, hp, hid, hpar⟩ := hedge
      simp only [c1State, List.mem_cons, List.not_mem_nil, or_false] at hp
      rcases hp with hp | hp
      · rw [hp] at hpar
        simp at hpar
      · rw [hp] at hid hpar
        simp only at hid hpar
        have hr : r = "p" := by
          have := hpar.symm
          simpa using this
        have hq : qid = "c" := hid.symm
        subst hr hq
        rcases ih with ⟨hl, ha⟩ | ⟨ha, hr2, -⟩
        · exact Or.inr ⟨ha, rfl, by rw [hl]⟩
        · exact absurd hr2 (by decide)

/-- Witness for C1: deleting root "p" removes descendant "c" and its block. -/
theorem delete_page_removes_subtree_witness :
    (∀ p ∈ (delete_page c1State "p").1.pages, p.id ≠ "c")
    ∧ (∀ b ∈ (delete_page c1State "p").1.blocks, b.page_id ≠ "c") := by
  apply delete_page_removes_subtree c1State "p" "c" (by unfold NodupIds; decide)
  · intro a l hch
    rcases c1State_chains a a l hch with ⟨hl, -⟩ | ⟨ha, hc, -⟩
    · exact hl
    · exact absurd (ha ▸ hc) (by decide)
  · exact ⟨["c"], Chain.cons Chain.nil
      ⟨{ id := "c", parent_id := some "p" }, by simp [c1State], rfl, rfl⟩⟩

end BrainNotes
